import Mathlib

/-!
Verification of the SalonLineBot booking engine.

This file gives a shallow embedding of the availability engine
(`src/api/google_calendar.py`) and of the conversational reservation flow
(`src/api/reservation_flow.py`), and proves/refutes the testable properties
of the specification.

Times of day are modelled as minutes since midnight (`Nat`); the Python code
works with same-day `datetime` values whose comparisons and differences
coincide with minute arithmetic.  Where the Python code manipulates raw
`"HH:MM"` strings (the conversation layer compares such strings with the
string `<=` operator), the embedding uses `List Char` together with the
code-point lexicographic order, which is exactly Python's string order.
-/

namespace Salon

/-- A half-open time interval `[start, stop)` in minutes since midnight. -/
structure Interval where
  start : Nat
  stop : Nat
deriving Repr, DecidableEq

/-- `covers t i` : the point `t` lies in the half-open interval `i`. -/
def covers (t : Nat) (i : Interval) : Bool :=
  decide (i.start ≤ t ∧ t < i.stop)

/-- Shallow embedding of `GoogleCalendarHelper._find_available_periods`
(`src/api/google_calendar.py` lines 472-518).  `cursor` models the local
variable `business_start`, which the Python loop mutates while walking the
sorted event list; `bEnd` models `business_end`.  The trailing gap emitted
after the loop (`if business_start < business_end`) is the `[]` case here.
Note the faithful branch structure: an event passing the overlap test whose
start is strictly *before* the cursor falls through both the `>` and the
`==` branch and leaves the cursor untouched. -/
def findAvailablePeriods (cursor bEnd : Nat) : List Interval → List Interval
  | [] => if cursor < bEnd then [⟨cursor, bEnd⟩] else []
  | e :: rest =>
    if e.start ≤ bEnd ∧ cursor ≤ e.stop then
      if cursor < e.start then
        ⟨cursor, e.start⟩ :: findAvailablePeriods e.stop bEnd rest
      else if e.start = cursor then
        findAvailablePeriods e.stop bEnd rest
      else
        findAvailablePeriods cursor bEnd rest
    else
      findAvailablePeriods cursor bEnd rest

/-- The sort key used by `_generate_all_slots` (`date_events.sort` on the
event start time). -/
def startLE (a b : Interval) : Prop := a.start ≤ b.start

instance : DecidableRel startLE := fun a b => Nat.decLe a.start b.start

instance : IsTotal Interval startLE := ⟨fun a b => Nat.le_total a.start b.start⟩

instance : IsTrans Interval startLE := ⟨fun _ _ _ h1 h2 => Nat.le_trans h1 h2⟩

/-- The stable sort of the day's events by start time performed by
`_generate_all_slots` before calling `_find_available_periods`. -/
def sortEvents (evs : List Interval) : List Interval :=
  List.insertionSort startLE evs

/-- Two blocking intervals do not overlap (as half-open intervals). -/
def NonOverlapping (a b : Interval) : Prop := a.stop ≤ b.start ∨ b.stop ≤ a.start

/-- Every window emitted by the gap walk starts at or after the cursor, has
positive length, and ends at or before the end of the business period. -/
theorem findAvail_bounds (bEnd : Nat) (evs : List Interval) :
    ∀ cursor, ∀ w ∈ findAvailablePeriods cursor bEnd evs,
      cursor ≤ w.start ∧ w.start < w.stop ∧ w.stop ≤ bEnd := by
  induction evs with
  | nil =>
    intro cursor w hw
    simp only [findAvailablePeriods] at hw
    split at hw
    · next h =>
      simp only [List.mem_singleton] at hw
      subst hw
      exact ⟨Nat.le_refl _, h, Nat.le_refl _⟩
    · simp at hw
  | cons e rest ih =>
    intro cursor w hw
    simp only [findAvailablePeriods] at hw
    split at hw
    · next hov =>
      split at hw
      · next hlt =>
        rcases List.mem_cons.mp hw with h | h
        · subst h
          exact ⟨Nat.le_refl _, hlt, hov.1⟩
        · have h2 := ih e.stop w h
          exact ⟨Nat.le_trans hov.2 h2.1, h2.2⟩
      · split at hw
        · have h2 := ih e.stop w hw
          exact ⟨Nat.le_trans hov.2 h2.1, h2.2⟩
        · exact ih cursor w hw
    · exact ih cursor w hw

/-- A list of intervals that all lie strictly after `t` (or end at or before
`t`) contributes nothing to the point count at `t`. -/
theorem countP_covers_zero (t : Nat) (l : List Interval)
    (h : ∀ i ∈ l, t < i.start ∨ i.stop ≤ t) :
    l.countP (covers t) = 0 :=
  List.countP_eq_zero.mpr (fun i hi => by
    simp only [covers, decide_eq_true_eq]
    rcases h i hi with h1 | h1 <;> omega)

/-- Main tiling invariant for the gap walk: if the (sorted) events start at
or after the cursor, are positive, end inside the period, and are chained
(each ends before the next starts), then every point of `[cursor, bEnd)` is
covered by exactly one element of windows-plus-events. -/
theorem findAvail_tile (bEnd : Nat) (evs : List Interval) :
    ∀ cursor,
      (∀ e ∈ evs, cursor ≤ e.start ∧ e.start < e.stop ∧ e.stop ≤ bEnd) →
      evs.Pairwise (fun a b => a.stop ≤ b.start) →
      ∀ t, cursor ≤ t → t < bEnd →
        ((findAvailablePeriods cursor bEnd evs) ++ evs).countP (covers t) = 1 := by
  induction evs with
  | nil =>
    intro cursor _ _ t ht1 ht2
    have hc : cursor < bEnd := Nat.lt_of_le_of_lt ht1 ht2
    simp [findAvailablePeriods, hc, covers, ht1, ht2]
  | cons e rest ih =>
    intro cursor hall hp t ht1 ht2
    obtain ⟨hce, hpos, hebEnd⟩ := hall e (List.mem_cons_self e rest)
    have hrest : ∀ f ∈ rest, e.stop ≤ f.start :=
      fun f hf => (List.pairwise_cons.mp hp).1 f hf
    have hallr : ∀ f ∈ rest, e.stop ≤ f.start ∧ f.start < f.stop ∧ f.stop ≤ bEnd := by
      intro f hf
      have h2 := hall f (List.mem_cons_of_mem e hf)
      exact ⟨hrest f hf, h2.2.1, h2.2.2⟩
    have hpr : rest.Pairwise (fun a b => a.stop ≤ b.start) := (List.pairwise_cons.mp hp).2
    have hov : e.start ≤ bEnd ∧ cursor ≤ e.stop :=
      ⟨Nat.le_trans (Nat.le_of_lt hpos) hebEnd, Nat.le_trans hce (Nat.le_of_lt hpos)⟩
    have hWbound := findAvail_bounds bEnd rest e.stop
    rcases Nat.lt_or_ge cursor e.start with hlt | hge
    · have heq : findAvailablePeriods cursor bEnd (e :: rest)
          = ⟨cursor, e.start⟩ :: findAvailablePeriods e.stop bEnd rest := by
        simp only [findAvailablePeriods]
        rw [if_pos hov, if_pos hlt]
      rw [heq]
      rcases Nat.lt_or_ge t e.start with ht | ht
      · have hW : (findAvailablePeriods e.stop bEnd rest).countP (covers t) = 0 :=
          countP_covers_zero t _ (fun i hi => Or.inl (by
            have := (hWbound i hi).1
            omega))
        have hR : rest.countP (covers t) = 0 :=
          countP_covers_zero t _ (fun i hi => Or.inl (by
            have := hrest i hi
            omega))
        have h0 : covers t ⟨cursor, e.start⟩ = true := by
          simp only [covers, decide_eq_true_eq]; exact ⟨ht1, ht⟩
        have he0 : covers t e = false := by
          simp only [covers, decide_eq_false_iff_not, not_and]; omega
        simp [List.countP_cons, List.countP_append, hW, hR, h0, he0]
      · rcases Nat.lt_or_ge t e.stop with ht2' | ht2'
        · have hW : (findAvailablePeriods e.stop bEnd rest).countP (covers t) = 0 :=
            countP_covers_zero t _ (fun i hi => Or.inl (by
              have := (hWbound i hi).1
              omega))
          have hR : rest.countP (covers t) = 0 :=
            countP_covers_zero t _ (fun i hi => Or.inl (by
              have := hrest i hi
              omega))
          have h0 : covers t ⟨cursor, e.start⟩ = false := by
            simp only [covers, decide_eq_false_iff_not, not_and]; omega
          have he1 : covers t e = true := by
            simp only [covers, decide_eq_true_eq]; exact ⟨ht, ht2'⟩
          simp [List.countP_cons, List.countP_append, hW, hR, h0, he1]
        · have hIH := ih e.stop hallr hpr t ht2' ht2
          have h0 : covers t ⟨cursor, e.start⟩ = false := by
            simp only [covers, decide_eq_false_iff_not, not_and]; omega
          have he0 : covers t e = false := by
            simp only [covers, decide_eq_false_iff_not, not_and]; omega
          simp [List.countP_append, List.countP_cons, h0, he0] at hIH ⊢
          omega
    · have hgeq : e.start = cursor := Nat.le_antisymm hge hce
      have heq : findAvailablePeriods cursor bEnd (e :: rest)
          = findAvailablePeriods e.stop bEnd rest := by
        simp only [findAvailablePeriods]
        rw [if_pos hov, if_neg (by omega), if_pos hgeq]
      rw [heq]
      rcases Nat.lt_or_ge t e.stop with ht2' | ht2'
      · have hW : (findAvailablePeriods e.stop bEnd rest).countP (covers t) = 0 :=
          countP_covers_zero t _ (fun i hi => Or.inl (by
            have := (hWbound i hi).1
            omega))
        have hR : rest.countP (covers t) = 0 :=
          countP_covers_zero t _ (fun i hi => Or.inl (by
            have := hrest i hi
            omega))
        have he1 : covers t e = true := by
          simp only [covers, decide_eq_true_eq]; omega
        simp [List.countP_cons, List.countP_append, hW, hR, he1]
      · have hIH := ih e.stop hallr hpr t ht2' ht2
        have he0 : covers t e = false := by
          simp only [covers, decide_eq_false_iff_not, not_and]; omega
        simp [List.countP_append, List.countP_cons, he0] at hIH ⊢
        omega

/-- Sorted-by-start plus pairwise non-overlapping plus positive lengths
gives the chained form used by the tiling invariant. -/
theorem pairwise_chain_of_sorted (l : List Interval)
    (hs : l.Pairwise startLE)
    (hd : l.Pairwise NonOverlapping)
    (hpos : ∀ e ∈ l, e.start < e.stop) :
    l.Pairwise (fun a b => a.stop ≤ b.start) := by
  induction l with
  | nil => exact List.Pairwise.nil
  | cons a l ih =>
    rw [List.pairwise_cons] at hs hd ⊢
    refine ⟨?_, ih hs.2 hd.2 (fun e he => hpos e (List.mem_cons_of_mem a he))⟩
    intro b hb
    have h1 := hs.1 b hb
    rcases hd.1 b hb with h | h
    · exact h
    · have h2 := hpos b (List.mem_cons_of_mem a hb)
      unfold startLE at h1
      omega

/-- C1: for every business period and every set of pairwise non-overlapping
positive blocking intervals lying entirely inside that period, the free
windows computed by `_find_available_periods` (after the sort performed by
`_generate_all_slots`) together with the blocking intervals exactly tile the
period: every window is positive and lies inside the period, and every point
of the period is covered by exactly one window or blocking interval. -/
theorem C1_gap_finding_tiles (bStart bEnd : Nat) (evs : List Interval)
    (hpos : ∀ e ∈ evs, e.start < e.stop)
    (hin : ∀ e ∈ evs, bStart ≤ e.start ∧ e.stop ≤ bEnd)
    (hdisj : evs.Pairwise NonOverlapping) :
    (∀ w ∈ findAvailablePeriods bStart bEnd (sortEvents evs),
        bStart ≤ w.start ∧ w.start < w.stop ∧ w.stop ≤ bEnd) ∧
    (∀ t, bStart ≤ t → t < bEnd →
        ((findAvailablePeriods bStart bEnd (sortEvents evs)) ++ evs).countP (covers t) = 1) := by
  have hperm : List.Perm (sortEvents evs) evs := List.perm_insertionSort startLE evs
  have hsorted : (sortEvents evs).Pairwise startLE := List.sorted_insertionSort startLE evs
  have hdisj' : (sortEvents evs).Pairwise NonOverlapping := by
    refine (List.Perm.pairwise_iff ?_ hperm).mpr hdisj
    intro a b h
    exact Or.symm h
  have hpos' : ∀ e ∈ sortEvents evs, e.start < e.stop :=
    fun e he => hpos e (hperm.mem_iff.mp he)
  have hin' : ∀ e ∈ sortEvents evs, bStart ≤ e.start ∧ e.stop ≤ bEnd :=
    fun e he => hin e (hperm.mem_iff.mp he)
  have hchain : (sortEvents evs).Pairwise (fun a b => a.stop ≤ b.start) :=
    pairwise_chain_of_sorted _ hsorted hdisj' hpos'
  constructor
  · exact findAvail_bounds bEnd (sortEvents evs) bStart
  · intro t ht1 ht2
    have htile := findAvail_tile bEnd (sortEvents evs) bStart
      (fun e he => ⟨(hin' e he).1, hpos' e he, (hin' e he).2⟩) hchain t ht1 ht2
    rw [List.countP_append] at htile ⊢
    rw [← hperm.countP_eq]
    exact htile

/-- Witness for C1 at a concrete input: period 09:00-12:00 (540-720) with one
blocking interval 10:00-11:00 (600-660), point 10:50 (650). -/
theorem C1_gap_finding_tiles_witness :
    (540 ≤ 650 ∧ 650 < 720) ∧
    ((findAvailablePeriods 540 720 (sortEvents [Interval.mk 600 660]))
        ++ [Interval.mk 600 660]).countP (covers 650) = 1 :=
  ⟨by decide,
    (C1_gap_finding_tiles 540 720 [Interval.mk 600 660] (by decide) (by decide)
      (by simp [NonOverlapping])).2 650 (by decide) (by decide)⟩

/-- C3 evaluation: a blocking interval 08:00-10:00 (480-600) that starts
before the business period 09:00-12:00 (540-720) and ends strictly inside it
is silently skipped by `_find_available_periods`: since its start is below
the cursor, neither the `>` branch nor the `==` branch fires and the cursor
is never advanced to its end, so the whole period is reported as one free
window and 09:00-10:00 is offered even though it is booked. -/
theorem C3_before_period_event_ignored :
    findAvailablePeriods 540 720 [⟨480, 600⟩] = [⟨540, 720⟩]
      ∧ ¬ (∀ w ∈ findAvailablePeriods 540 720 [⟨480, 600⟩], 600 ≤ w.start) := by
  refine ⟨rfl, ?_⟩
  decide

/-! ### Calendar events and the modification-flow slot computation

`get_available_slots_for_modification` (`src/api/google_calendar.py` lines
567-643) fetches the day's events, optionally filters them to one staff
member, splits off every event whose description contains
`"予約ID: <excludeReservationId>"`, and feeds only the remaining events to
`_generate_all_slots` for that single date.  Strings are modelled as
`List Char` (Python's code-point semantics). -/

/-- Model string: a Python string as its list of code points. -/
abbrev Str := List Char

/-- One Google Calendar event as consumed by the availability pipeline.
`dateMatches` models `event_start.date() == current_date` (the filter in
`_generate_all_slots`); `summaryStaff` models the staff name extracted from
the summary by `_filter_events_by_staff`'s regex (`none` when the summary
does not match the `"[予約] SERVICE - CLIENT (STAFF)"` pattern). -/
structure CalEvent where
  dateMatches : Bool
  startMin : Nat
  stopMin : Nat
  description : Str
  summaryStaff : Option Str
deriving Repr, DecidableEq

/-- The event's time range as an interval. -/
def CalEvent.interval (e : CalEvent) : Interval := ⟨e.startMin, e.stopMin⟩

/-- The literal `"予約ID: "` prefix used by the description matching. -/
def resIdMarker : Str := ['予', '約', 'I', 'D', ':', ' ']

/-- Python's substring containment `needle in hay`. -/
def strContains (hay needle : Str) : Bool :=
  decide (needle <:+: hay)

/-- `f"予約ID: {exclude_reservation_id}" in description` (substring test). -/
def eventMatchesResId (resId : Str) (e : CalEvent) : Bool :=
  strContains e.description (resIdMarker ++ resId)

/-- `GoogleCalendarHelper._filter_events_by_staff`: keep only events whose
summary parsed to exactly this staff name. -/
def filterEventsByStaff (staffName : Str) (evs : List CalEvent) : List CalEvent :=
  evs.filter (fun e => e.summaryStaff == some staffName)

/-- The hard-coded business periods of `_generate_all_slots`:
9:00-12:00 and 13:00-18:00, in minutes. -/
def businessPeriods : List (Nat × Nat) := [(540, 720), (780, 1080)]

/-- `_generate_all_slots` for a single day (the modification path calls it
with `end_date = start_date`): skip Sundays, keep the events of that date,
sort them by start time, and concatenate the free windows of each business
period. -/
def generateAllSlotsOneDay (isSunday : Bool) (evs : List CalEvent) : List Interval :=
  if isSunday then []
  else
    let sorted := sortEvents ((evs.filter (fun e => e.dateMatches)).map CalEvent.interval)
    (businessPeriods.map (fun p => findAvailablePeriods p.1 p.2 sorted)).flatten

/-- `GoogleCalendarHelper.get_available_slots_for_modification`: staff
filter first, then drop every event whose description carries the excluded
reservation id, then compute the day's free windows from the rest. -/
def getAvailableSlotsForModification (isSunday : Bool) (excludeId : Option Str)
    (staffName : Option Str) (evs : List CalEvent) : List Interval :=
  let evs1 := match staffName with
    | some s => filterEventsByStaff s evs
    | none => evs
  let others := match excludeId with
    | some rid => evs1.filter (fun e => !(eventMatchesResId rid e))
    | none => evs1
  generateAllSlotsOneDay isSunday others

/-- If no event of the list overlaps `[s, e)` and the cursor is at or before
`s`, the gap walk emits a window containing all of `[s, e)`. -/
theorem findAvail_contains_free_range (bEnd s e : Nat) (evs : List Interval) :
    ∀ cursor, cursor ≤ s → s < e → e ≤ bEnd →
      (∀ ev ∈ evs, ev.stop ≤ s ∨ e ≤ ev.start) →
      ∃ w ∈ findAvailablePeriods cursor bEnd evs, w.start ≤ s ∧ e ≤ w.stop := by
  induction evs with
  | nil =>
    intro cursor h1 h2 h3 _
    refine ⟨⟨cursor, bEnd⟩, ?_, h1, h3⟩
    simp only [findAvailablePeriods]
    rw [if_pos (by omega)]
    exact List.mem_singleton.mpr rfl
  | cons ev rest ih =>
    intro cursor h1 h2 h3 hall
    have hallr : ∀ f ∈ rest, f.stop ≤ s ∨ e ≤ f.start :=
      fun f hf => hall f (List.mem_cons_of_mem ev hf)
    by_cases hov : ev.start ≤ bEnd ∧ cursor ≤ ev.stop
    · by_cases hlt : cursor < ev.start
      · have heq : findAvailablePeriods cursor bEnd (ev :: rest)
            = ⟨cursor, ev.start⟩ :: findAvailablePeriods ev.stop bEnd rest := by
          simp only [findAvailablePeriods]
          rw [if_pos hov, if_pos hlt]
        rw [heq]
        rcases hall ev (List.mem_cons_self ev rest) with hA | hB
        · obtain ⟨w, hw, hws⟩ := ih ev.stop hA h2 h3 hallr
          exact ⟨w, List.mem_cons_of_mem _ hw, hws⟩
        · exact ⟨⟨cursor, ev.start⟩, List.mem_cons_self _ _, h1, hB⟩
      · by_cases hgeq : ev.start = cursor
        · have heq : findAvailablePeriods cursor bEnd (ev :: rest)
              = findAvailablePeriods ev.stop bEnd rest := by
            simp only [findAvailablePeriods]
            rw [if_pos hov, if_neg hlt, if_pos hgeq]
          rw [heq]
          rcases hall ev (List.mem_cons_self ev rest) with hA | hB
          · exact ih ev.stop hA h2 h3 hallr
          · omega
        · have heq : findAvailablePeriods cursor bEnd (ev :: rest)
              = findAvailablePeriods cursor bEnd rest := by
            simp only [findAvailablePeriods]
            rw [if_pos hov, if_neg hlt, if_neg hgeq]
          rw [heq]
          exact ih cursor h1 h2 h3 hallr
    · have heq : findAvailablePeriods cursor bEnd (ev :: rest)
          = findAvailablePeriods cursor bEnd rest := by
        simp only [findAvailablePeriods]
        rw [if_neg hov]
      rw [heq]
      exact ih cursor h1 h2 h3 hallr

/-- C2: computing free windows for modification with `excludeReservationId`
set yields exactly the windows computed with that reservation's event
removed from the input; and when the excluded reservation lies inside a
business period on an open day and no other event overlaps its range, one
returned window contains its whole time range. -/
theorem C2_exclusion_correctness (isSunday : Bool) (rid : Str) (rv : CalEvent)
    (pre post : List CalEvent)
    (hmatch : eventMatchesResId rid rv = true)
    (hothers : ∀ ev ∈ pre ++ post, eventMatchesResId rid ev = false)
    (hsun : isSunday = false)
    (hbp : ∃ p ∈ businessPeriods, p.1 ≤ rv.startMin ∧ rv.stopMin ≤ p.2)
    (hpos : rv.startMin < rv.stopMin)
    (hfree : ∀ ev ∈ pre ++ post, ev.dateMatches = true →
        ev.stopMin ≤ rv.startMin ∨ rv.stopMin ≤ ev.startMin) :
    getAvailableSlotsForModification isSunday (some rid) none (pre ++ rv :: post)
        = generateAllSlotsOneDay isSunday (pre ++ post)
    ∧ ∃ w ∈ getAvailableSlotsForModification isSunday (some rid) none (pre ++ rv :: post),
        w.start ≤ rv.startMin ∧ rv.stopMin ≤ w.stop := by
  have hpre : pre.filter (fun e => !(eventMatchesResId rid e)) = pre :=
    List.filter_eq_self.mpr (fun a ha => by
      simp [hothers a (List.mem_append_left post ha)])
  have hpost : post.filter (fun e => !(eventMatchesResId rid e)) = post :=
    List.filter_eq_self.mpr (fun a ha => by
      simp [hothers a (List.mem_append_right pre ha)])
  have hfilter : (pre ++ rv :: post).filter (fun e => !(eventMatchesResId rid e))
      = pre ++ post := by
    rw [List.filter_append, List.filter_cons, hpre, hpost]
    simp [hmatch]
  have heq : getAvailableSlotsForModification isSunday (some rid) none (pre ++ rv :: post)
      = generateAllSlotsOneDay isSunday (pre ++ post) := by
    show generateAllSlotsOneDay isSunday
        ((pre ++ rv :: post).filter (fun e => !(eventMatchesResId rid e)))
      = generateAllSlotsOneDay isSunday (pre ++ post)
    rw [hfilter]
  refine ⟨heq, ?_⟩
  rw [heq, hsun]
  obtain ⟨p, hp, hps, hpe⟩ := hbp
  have hsortmem : ∀ iv ∈ sortEvents (((pre ++ post).filter (fun e => e.dateMatches)).map
      CalEvent.interval), iv.stop ≤ rv.startMin ∨ rv.stopMin ≤ iv.start := by
    intro iv hiv
    have hiv2 := (List.perm_insertionSort startLE _).mem_iff.mp hiv
    obtain ⟨ev, hev, rfl⟩ := List.mem_map.mp hiv2
    obtain ⟨hevmem, hevdate⟩ := List.mem_filter.mp hev
    exact hfree ev hevmem hevdate
  obtain ⟨w, hw, hws⟩ := findAvail_contains_free_range p.2 rv.startMin rv.stopMin _
    p.1 hps hpos hpe hsortmem
  refine ⟨w, ?_, hws⟩
  simp only [generateAllSlotsOneDay, Bool.false_eq_true, if_false]
  exact List.mem_flatten.mpr ⟨_, List.mem_map.mpr ⟨p, hp, rfl⟩, hw⟩

/-- Witness for C2: one event on 2025-01-15 from 10:00 to 11:00 carrying
reservation id `R001`, no other events; excluding `R001` frees the morning
period and the returned window 09:00-12:00 contains 10:00-11:00. -/
theorem C2_exclusion_correctness_witness :
    getAvailableSlotsForModification false (some ['R', '0', '0', '1']) none
        [CalEvent.mk true 600 660 (resIdMarker ++ ['R', '0', '0', '1']) none]
      = generateAllSlotsOneDay false []
    ∧ ∃ w ∈ getAvailableSlotsForModification false (some ['R', '0', '0', '1']) none
        [CalEvent.mk true 600 660 (resIdMarker ++ ['R', '0', '0', '1']) none],
        w.start ≤ 600 ∧ 660 ≤ w.stop :=
  C2_exclusion_correctness false ['R', '0', '0', '1']
    (CalEvent.mk true 600 660 (resIdMarker ++ ['R', '0', '0', '1']) none) [] []
    (by decide) (by simp) rfl ⟨(540, 720), by decide⟩ (by decide) (by simp)

/-! ### Python string primitives used by the conversation layer
(`src/api/reservation_flow.py`) -/

/-- Python `str.strip()`: drop whitespace on both ends. -/
def stripChars (cs : Str) : Str :=
  ((cs.dropWhile Char.isWhitespace).reverse.dropWhile Char.isWhitespace).reverse

/-- Python's string `<`: code-point lexicographic comparison.  This is the
order the code applies to `"HH:MM"` strings (`start_time >= end_time`,
`period_start <= start_time`, ...). -/
def strLt : Str → Str → Bool
  | [], [] => false
  | [], _ :: _ => true
  | _ :: _, [] => false
  | a :: as, b :: bs => if a < b then true else if b < a then false else strLt as bs

/-- Python's string `<=`. -/
def strLe (a b : Str) : Bool := !(strLt b a)

/-- `any(keyword in message for keyword in keywords)`. -/
def containsAnyKw (kws : List Str) (msg : Str) : Bool :=
  kws.any (fun k => strContains msg k)

/-- Numeric value of a decimal digit character. -/
def digitVal (c : Char) : Nat := c.toNat - 48

/-- Python `int(s)` on a string of decimal digits. -/
def digitsVal (cs : Str) : Nat := cs.foldl (fun a c => a * 10 + digitVal c) 0

/-- Decimal digits of `n`, most significant first (fuel-based accumulator
recursion; any `fuel ≥ n` computes all digits). -/
def natDigitsAux : Nat → Nat → Str → Str
  | 0, _, acc => acc
  | fuel + 1, n, acc =>
    if n = 0 then acc
    else natDigitsAux fuel (n / 10) (Char.ofNat (48 + n % 10) :: acc)

/-- Decimal representation of `n` (Python `str(n)` for `n : Nat`). -/
def natDigits (n : Nat) : Str := if n = 0 then ['0'] else natDigitsAux n n []

/-- Python `f"{n:02d}"`. -/
def pad2 (n : Nat) : Str := if n < 10 then '0' :: natDigits n else natDigits n

/-- Python `f"{m // 60:02d}:{m % 60:02d}"`, the formatting used by
`_calculate_optimal_end_time` (note: no modulo 24 on the hour). -/
def formatHM (m : Nat) : Str := pad2 (m / 60) ++ ':' :: pad2 (m % 60)

theorem foldl_digitsVal (cs : Str) :
    ∀ v : Nat, cs.foldl (fun a c => a * 10 + digitVal c) v
      = v * 10 ^ cs.length + digitsVal cs := by
  induction cs with
  | nil => intro v; simp [digitsVal]
  | cons c cs ih =>
    intro v
    have h1 := ih (v * 10 + digitVal c)
    have h2 := ih (0 * 10 + digitVal c)
    simp only [List.foldl_cons, List.length_cons, digitsVal] at *
    rw [h1, h2]
    ring

theorem char_digit_toNat {d : Nat} (hd : d < 10) :
    (Char.ofNat (48 + d)).toNat = 48 + d := by
  interval_cases d <;> decide

theorem char_digit_isDigit {d : Nat} (hd : d < 10) :
    (Char.ofNat (48 + d)).isDigit = true := by
  interval_cases d <;> decide

theorem digitsVal_natDigitsAux (fuel : Nat) :
    ∀ n acc, n ≤ fuel →
      digitsVal (natDigitsAux fuel n acc) = n * 10 ^ acc.length + digitsVal acc := by
  induction fuel with
  | zero =>
    intro n acc hle
    have : n = 0 := Nat.le_zero.mp hle
    subst this
    simp [natDigitsAux]
  | succ fuel ih =>
    intro n acc hle
    rw [natDigitsAux]
    by_cases hn : n = 0
    · subst hn
      simp
    · rw [if_neg hn]
      have hlt : n / 10 ≤ fuel := by
        have hx : n / 10 < n := Nat.div_lt_self (Nat.pos_of_ne_zero hn) (by norm_num)
        omega
      rw [ih _ _ hlt]
      have hc : digitVal (Char.ofNat (48 + n % 10)) = n % 10 := by
        unfold digitVal
        rw [char_digit_toNat (Nat.mod_lt _ (by norm_num))]
        omega
      have hdv : digitsVal (Char.ofNat (48 + n % 10) :: acc)
          = n % 10 * 10 ^ acc.length + digitsVal acc := by
        show List.foldl (fun a c => a * 10 + digitVal c) 0 (_ :: acc) = _
        rw [List.foldl_cons, foldl_digitsVal acc, hc]
        ring
      rw [hdv, List.length_cons]
      have hpow : n / 10 * 10 ^ (acc.length + 1)
          = n / 10 * 10 * 10 ^ acc.length := by
        ring
      rw [hpow]
      have h2 : n * 10 ^ acc.length
          = n / 10 * 10 * 10 ^ acc.length + n % 10 * 10 ^ acc.length := by
        have hmod := Nat.div_add_mod n 10
        calc n * 10 ^ acc.length
            = (10 * (n / 10) + n % 10) * 10 ^ acc.length := by rw [hmod]
          _ = n / 10 * 10 * 10 ^ acc.length + n % 10 * 10 ^ acc.length := by ring
      rw [h2]
      omega

theorem digitsVal_natDigits (n : Nat) : digitsVal (natDigits n) = n := by
  unfold natDigits
  split
  · next h => subst h; decide
  · rw [digitsVal_natDigitsAux n n [] (Nat.le_refl n)]
    simp [digitsVal]

theorem digitsVal_pad2 (n : Nat) : digitsVal (pad2 n) = n := by
  unfold pad2
  split
  · show List.foldl (fun a c => a * 10 + digitVal c) 0 (Char.mk 48 (by decide) :: natDigits n) = n
    rw [List.foldl_cons, foldl_digitsVal]
    have : digitVal (Char.mk 48 (by decide)) = 0 := by decide
    rw [this]
    simp [digitsVal_natDigits]
  · exact digitsVal_natDigits n

theorem natDigits_all_digits (n : Nat) : ∀ c ∈ natDigits n, c.isDigit = true := by
  have haux : ∀ fuel n acc, (∀ c ∈ acc, c.isDigit = true) →
      ∀ c ∈ natDigitsAux fuel n acc, c.isDigit = true := by
    intro fuel
    induction fuel with
    | zero =>
      intro n acc hacc c hc
      rw [natDigitsAux] at hc
      exact hacc c hc
    | succ fuel ih =>
      intro n acc hacc c hc
      rw [natDigitsAux] at hc
      split at hc
      · exact hacc c hc
      · refine ih _ _ ?_ c hc
        intro d hd
        rcases List.mem_cons.mp hd with h | h
        · subst h
          exact char_digit_isDigit (Nat.mod_lt _ (by norm_num))
        · exact hacc d h
  intro c hc
  unfold natDigits at hc
  split at hc
  · rcases List.mem_singleton.mp hc with rfl
    decide
  · exact haux _ _ _ (by simp) c hc

theorem pad2_all_digits (n : Nat) : ∀ c ∈ pad2 n, c.isDigit = true := by
  intro c hc
  unfold pad2 at hc
  split at hc
  · rcases List.mem_cons.mp hc with rfl | h
    · decide
    · exact natDigits_all_digits n c h
  · exact natDigits_all_digits n c hc

theorem natDigitsAux_length (fuel : Nat) :
    ∀ n acc, acc.length ≤ (natDigitsAux fuel n acc).length := by
  induction fuel with
  | zero =>
    intro n acc
    rw [natDigitsAux]
  | succ fuel ih =>
    intro n acc
    rw [natDigitsAux]
    split
    · exact Nat.le_refl _
    · have := ih (n / 10) (Char.ofNat (48 + n % 10) :: acc)
      simp only [List.length_cons] at this
      omega

theorem natDigits_ne_nil (n : Nat) : natDigits n ≠ [] := by
  unfold natDigits
  split
  · simp
  · next h =>
    match n, h with
    | m + 1, h =>
      rw [natDigitsAux, if_neg h]
      intro hcon
      have := natDigitsAux_length m ((m + 1) / 10) [Char.ofNat (48 + (m + 1) % 10)]
      rw [hcon] at this
      simp at this

theorem pad2_ne_nil (n : Nat) : pad2 n ≠ [] := by
  unfold pad2
  split
  · simp
  · exact natDigits_ne_nil n

/-- Python `s.split(':')`. -/
def splitColon : Str → List Str
  | [] => [[]]
  | c :: cs =>
    if c = ':' then [] :: splitColon cs
    else match splitColon cs with
      | [] => [[c]]
      | g :: gs => (c :: g) :: gs

theorem splitColon_ne_nil (cs : Str) : splitColon cs ≠ [] := by
  induction cs with
  | nil => simp [splitColon]
  | cons c cs ih =>
    unfold splitColon
    split
    · simp
    · split
      · simp
      · simp

theorem splitColon_no_colon (cs : Str) (h : ':' ∉ cs) : splitColon cs = [cs] := by
  induction cs with
  | nil => rfl
  | cons c cs ih =>
    have hc : c ≠ ':' := fun hcc => h (hcc ▸ List.mem_cons_self c cs)
    have hcs : ':' ∉ cs := fun hm => h (List.mem_cons_of_mem c hm)
    unfold splitColon
    rw [if_neg hc, ih hcs]

theorem splitColon_cons_ne (c : Char) (cs : Str) (hc : c ≠ ':') :
    splitColon (c :: cs) = match splitColon cs with
      | [] => [[c]]
      | g :: gs => (c :: g) :: gs := by
  conv_lhs => rw [splitColon]
  rw [if_neg hc]

theorem splitColon_append (xs ys : Str) (h : ':' ∉ xs) :
    splitColon (xs ++ ':' :: ys) = xs :: splitColon ys := by
  induction xs with
  | nil => simp [splitColon]
  | cons c cs ih =>
    have hc : c ≠ ':' := fun hcc => h (hcc ▸ List.mem_cons_self c cs)
    have hcs : ':' ∉ cs := fun hm => h (List.mem_cons_of_mem c hm)
    show splitColon (c :: (cs ++ ':' :: ys)) = (c :: cs) :: splitColon ys
    rw [splitColon_cons_ne c _ hc, ih hcs]

/-- `start_hour, start_minute = map(int, t.split(':'))` followed by
`hour * 60 + minute`, as done by `_calculate_time_duration_minutes` and
`_calculate_optimal_end_time`.  All call sites feed strings produced by the
time-range parser or by `strftime("%H:%M")`, which are pure-digit `H:MM` /
`HH:MM` forms; on those this matches Python exactly, and a malformed string
yields `none` (the `except` path). -/
def parseHMChars (cs : Str) : Option Nat :=
  match splitColon cs with
  | [h, m] =>
    if h ≠ [] ∧ m ≠ [] ∧ h.all Char.isDigit ∧ m.all Char.isDigit then
      some (digitsVal h * 60 + digitsVal m)
    else none
  | _ => none

/-- `_calculate_time_duration_minutes`: end minus start in minutes (may be
negative); parse failure returns 0. -/
def timeDurationMinutes (s e : Str) : Int :=
  match parseHMChars s, parseHMChars e with
  | some a, some b => (b : Int) - (a : Int)
  | _, _ => 0

/-- `_calculate_optimal_end_time`: start plus the service duration,
formatted `"%02d:%02d"` with no day wrap; parse failure returns the start
string unchanged. -/
def optimalEndTime (s : Str) (dur : Nat) : Str :=
  match parseHMChars s with
  | some a => formatHM (a + dur)
  | none => s

/-- One `\d{1,2}:\d{2}` token of `_parse_time_range`'s regexes: greedy
two-digit hour if the colon follows, else one digit, then exactly two
digit minutes; returns the matched `"H:MM"`/`"HH:MM"` text and the rest. -/
def parseTimeTok : Str → Option (Str × Str)
  | a :: b :: ':' :: m1 :: m2 :: rest =>
    if a.isDigit ∧ b.isDigit ∧ m1.isDigit ∧ m2.isDigit then
      some ([a, b, ':', m1, m2], rest)
    else none
  | a :: ':' :: m1 :: m2 :: rest =>
    if a.isDigit ∧ m1.isDigit ∧ m2.isDigit then
      some ([a, ':', m1, m2], rest)
    else none
  | _ => none

/-- `datetime.strptime(t, "%H:%M")` succeeds: the hour value is at most 23
and the minute value at most 59 (both parts all digits). -/
def validHM (t : Str) : Bool :=
  match splitColon t with
  | [h, m] =>
    decide (h ≠ []) && decide (m ≠ []) && h.all Char.isDigit && m.all Char.isDigit
      && decide (digitsVal h ≤ 23) && decide (digitsVal m ≤ 59)
  | _ => false

/-- Pattern 1 of `_parse_time_range`: `^(\d{1,2}:\d{2})[~～](\d{1,2}:\d{2})$`. -/
def parseRangeTilde (cs : Str) : Option (Str × Str) :=
  match parseTimeTok cs with
  | some (t1, sep :: r2) =>
    if sep = '~' ∨ sep = '～' then
      match parseTimeTok r2 with
      | some (t2, []) => some (t1, t2)
      | _ => none
    else none
  | _ => none

/-- Pattern 2 of `_parse_time_range`: `^(\d{1,2}:\d{2})\s+(\d{1,2}:\d{2})$`. -/
def parseRangeSpace (cs : Str) : Option (Str × Str) :=
  match parseTimeTok cs with
  | some (t1, r1) =>
    let r2 := r1.dropWhile Char.isWhitespace
    if r2.length < r1.length then
      match parseTimeTok r2 with
      | some (t2, []) => some (t1, t2)
      | _ => none
    else none
  | none => none

/-- Try pattern 2 with `strptime` validation (the second half of
`_parse_time_range`). -/
def rangeSpaceValidated (t : Str) : Option (Str × Str) :=
  match parseRangeSpace t with
  | some (a, b) => if validHM a && validHM b then some (a, b) else none
  | none => none

/-- Body of `_parse_time_range` after `text = text.strip()`: try the tilde
pattern with `strptime` validation, then the space pattern. -/
def parseTimeRangeStripped (t : Str) : Option (Str × Str) :=
  match parseRangeTilde t with
  | some (a, b) => if validHM a && validHM b then some (a, b) else rangeSpaceValidated t
  | none => rangeSpaceValidated t

/-- `ReservationFlow._parse_time_range` (lines 884-917). -/
def parseTimeRange (cs : Str) : Option (Str × Str) :=
  parseTimeRangeStripped (stripChars cs)

theorem isDigit_ne_colon {c : Char} (h : c.isDigit = true) : c ≠ ':' := by
  intro hc
  subst hc
  exact absurd h (by decide)

theorem parseTimeTok_shape {cs : Str} {t r : Str} (h : parseTimeTok cs = some (t, r)) :
    (∃ a b m1 m2, t = [a, b, ':', m1, m2]
        ∧ a.isDigit = true ∧ b.isDigit = true ∧ m1.isDigit = true ∧ m2.isDigit = true) ∨
    (∃ a m1 m2, t = [a, ':', m1, m2]
        ∧ a.isDigit = true ∧ m1.isDigit = true ∧ m2.isDigit = true) := by
  unfold parseTimeTok at h
  split at h
  · split at h
    · next hd =>
      injection h with h1
      injection h1 with h2 h3
      exact Or.inl ⟨_, _, _, _, h2.symm, hd.1, hd.2.1, hd.2.2.1, hd.2.2.2⟩
    · cases h
  · split at h
    · next hd =>
      injection h with h1
      injection h1 with h2 h3
      exact Or.inr ⟨_, _, _, h2.symm, hd.1, hd.2.1, hd.2.2⟩
    · cases h
  · cases h

theorem parseHM_of_tok_shape {t : Str}
    (h : (∃ a b m1 m2, t = [a, b, ':', m1, m2]
        ∧ a.isDigit = true ∧ b.isDigit = true ∧ m1.isDigit = true ∧ m2.isDigit = true) ∨
      (∃ a m1 m2, t = [a, ':', m1, m2]
        ∧ a.isDigit = true ∧ m1.isDigit = true ∧ m2.isDigit = true)) :
    ∃ v, parseHMChars t = some v := by
  rcases h with ⟨a, b, m1, m2, rfl, ha, hb, h1, h2⟩ | ⟨a, m1, m2, rfl, ha, h1, h2⟩
  · refine ⟨digitsVal [a, b] * 60 + digitsVal [m1, m2], ?_⟩
    unfold parseHMChars
    have hs : splitColon [a, b, ':', m1, m2] = [[a, b], [m1, m2]] := by
      have := splitColon_append [a, b] [m1, m2] (by
        intro hmem
        rcases List.mem_cons.mp hmem with rfl | hmem2
        · exact isDigit_ne_colon ha rfl
        · rcases List.mem_cons.mp hmem2 with rfl | hmem3
          · exact isDigit_ne_colon hb rfl
          · simp at hmem3)
      rw [show ([a, b] ++ ':' :: [m1, m2] : Str) = [a, b, ':', m1, m2] from rfl] at this
      rw [this, splitColon_no_colon [m1, m2] (by
        intro hmem
        rcases List.mem_cons.mp hmem with rfl | hmem2
        · exact isDigit_ne_colon h1 rfl
        · rcases List.mem_cons.mp hmem2 with rfl | hmem3
          · exact isDigit_ne_colon h2 rfl
          · simp at hmem3)]
    rw [hs]
    dsimp only
    rw [if_pos]
    exact ⟨by simp, by simp, by simp [ha, hb], by simp [h1, h2]⟩
  · refine ⟨digitsVal [a] * 60 + digitsVal [m1, m2], ?_⟩
    unfold parseHMChars
    have hs : splitColon [a, ':', m1, m2] = [[a], [m1, m2]] := by
      have := splitColon_append [a] [m1, m2] (by
        intro hmem
        rcases List.mem_cons.mp hmem with rfl | hmem2
        · exact isDigit_ne_colon ha rfl
        · simp at hmem2)
      rw [show ([a] ++ ':' :: [m1, m2] : Str) = [a, ':', m1, m2] from rfl] at this
      rw [this, splitColon_no_colon [m1, m2] (by
        intro hmem
        rcases List.mem_cons.mp hmem with rfl | hmem2
        · exact isDigit_ne_colon h1 rfl
        · rcases List.mem_cons.mp hmem2 with rfl | hmem3
          · exact isDigit_ne_colon h2 rfl
          · simp at hmem3)]
    rw [hs]
    dsimp only
    rw [if_pos]
    exact ⟨by simp, by simp, by simp [ha], by simp [h1, h2]⟩

theorem rangeSpaceValidated_parseHM {t s e : Str} (ht : rangeSpaceValidated t = some (s, e)) :
    (∃ a, parseHMChars s = some a) ∧ (∃ b, parseHMChars e = some b) := by
  unfold rangeSpaceValidated at ht
  split at ht
  · next a b heq =>
    split at ht
    · injection ht with h1
      injection h1 with h2 h3
      subst h2; subst h3
      unfold parseRangeSpace at heq
      split at heq
      · next t1 r1 heq1 =>
        dsimp only at heq
        split at heq
        · split at heq
          · next t2 heq2 =>
            injection heq with hq
            injection hq with hq1 hq2
            subst hq1; subst hq2
            exact ⟨parseHM_of_tok_shape (parseTimeTok_shape heq1),
              parseHM_of_tok_shape (parseTimeTok_shape heq2)⟩
          · cases heq
        · cases heq
      · cases heq
    · cases ht
  · cases ht

theorem parseTimeRangeStripped_parseHM {t s e : Str}
    (h : parseTimeRangeStripped t = some (s, e)) :
    (∃ a, parseHMChars s = some a) ∧ (∃ b, parseHMChars e = some b) := by
  unfold parseTimeRangeStripped at h
  split at h
  · next a b heq =>
    split at h
    · injection h with h1
      injection h1 with h2 h3
      subst h2; subst h3
      unfold parseRangeTilde at heq
      split at heq
      · next t1 sep r2 heq1 =>
        split at heq
        · split at heq
          · next t2 heq2 =>
            injection heq with hq
            injection hq with hq1 hq2
            subst hq1; subst hq2
            exact ⟨parseHM_of_tok_shape (parseTimeTok_shape heq1),
              parseHM_of_tok_shape (parseTimeTok_shape heq2)⟩
          · cases heq
        · cases heq
      · cases heq
    · exact rangeSpaceValidated_parseHM h
  · exact rangeSpaceValidated_parseHM h

theorem parseTimeRange_parseHM {cs s e : Str} (h : parseTimeRange cs = some (s, e)) :
    (∃ a, parseHMChars s = some a) ∧ (∃ b, parseHMChars e = some b) :=
  parseTimeRangeStripped_parseHM h

theorem colon_not_in_pad2 (n : Nat) : ':' ∉ pad2 n := by
  intro h
  have := pad2_all_digits n ':' h
  simp at this

/-! ### The conversation state machine (`src/api/reservation_flow.py`)

Keyword tables, service definitions and staff names are loaded from JSON
data files that are not part of the sources (`data/keywords.json`,
`data/services.json`); they appear here as a `Config` parameter.  External
collaborators (Google Calendar, Google Sheets, the LINE profile API) appear
as an `Env` of oracles; the pure slot computation behind
`env.slotsForModification` is the calendar model proved above. -/

/-- Conversation steps stored in `user_states[user]["step"]`. -/
inductive Step
  | start
  | serviceSelection
  | staffSelection
  | dateSelection
  | timeSelection
  | confirmation
  | cancelSelectReservation
  | cancelConfirm
  | modifySelectReservation
  | modifySelectField
  | modifyTimeDateSelect
  | modifyTimeInputDate
  | modifyConfirm
deriving Repr, DecidableEq

/-- One reservation row as returned by `get_user_reservations`. -/
structure Reservation where
  reservationId : Str
  date : Str
  startTime : Str
  endTime : Str
  service : Str
  staff : Str
  clientName : Str
deriving Repr, DecidableEq

/-- One slot dict as returned by `get_available_slots` (string times,
`available` flag). -/
structure StrSlot where
  date : Str
  time : Str
  endTime : Str
  available : Bool
deriving Repr, DecidableEq

/-- The `modification_type` scratch value of the Modify flow. -/
inductive ModField
  | time
  | service
  | staff
deriving Repr, DecidableEq

/-- One user's `user_states` entry: the step, the draft fields under
`"data"`, and the scratch keys of the Modify/Cancel flows.  `none` models an
absent dictionary key; `originalEndTime`'s outer `Option` is key presence
and its inner `Option` the stored value (the code stores Python `None`
there on a parse failure).  `availableSlots` holds the minute values of the
`"HH:MM"` strings stored by `_show_available_times_for_date` (the strings
come zero-padded from `strftime`, so the minute value determines them). -/
structure Session where
  step : Step
  service : Option Str := none
  staff : Option Str := none
  date : Option Str := none
  startTime : Option Str := none
  endTime : Option Str := none
  timeField : Option Str := none
  originalEndTime : Option (Option Str) := none
  reservationId : Option Str := none
  userReservations : List Reservation := []
  selectedReservation : Option Reservation := none
  reservationData : Option Reservation := none
  modificationType : Option ModField := none
  selectedDate : Option Str := none
  availableSlots : List (Nat × Nat) := []
deriving Repr, DecidableEq

set_option maxHeartbeats 1600000 in
/-- The distinct user-visible messages of the flow, one constructor per
distinct reply text.  `createFlowCancelled` is the literal
`"予約をキャンセルいたします。またのご利用をお待ちしております。"` — the
same string is returned by the flow-cancel interrupt of
`handle_reservation_flow` and by the non-affirmative branch of
`_handle_confirmation`. -/
inductive Reply
  | createFlowCancelled
  | serviceList
  | serviceNotOffered
  | staffList
  | staffNotSelectable
  | calendarTemplate
  | dateFormatError
  | noSlotsForDate
  | timePrompt
  | timeFormatError
  | invertedRange (s e : Str)
  | outsideAvailability (s e : Str)
  | tooShort (s e : Str) (d : Int)
  | confirmPrompt (s e : Str) (adjusted : Bool)
  | reservationConfirmed (rid : Str)
  | flowError
  | cancelFlowCancelled
  | noReservationsFound
  | reservationListCancel
  | cancelConfirmPrompt (r : Reservation)
  | resIdNotFound
  | invalidSelectionNumber
  | invalidSelectionFormat
  | cancelCompleted (r : Reservation)
  | cancelOfCancelKeepRes
  | cancelConfirmReprompt
  | cancelProcessError
  | modifyFlowCancelled
  | reservationListModify
  | modifyFieldPrompt (r : Reservation)
  | modifyFieldReprompt
  | timeModPrompt (r : Reservation)
  | newDatePrompt
  | chooseNumberReprompt
  | sundayClosed
  | pastDate
  | newDateFormatError
  | noTimesForDate (d : Str)
  | availableTimesList (d : Str)
  | serviceModPrompt (r : Reservation)
  | staffModPrompt (r : Reservation)
  | timeModFormatError
  | timeNotAvailable
  | endBeforeStart
  | timeModDurationError
  | calendarUpdateFailed
  | timeModCompleted (rid d s e : Str)
  | serviceNotOffered2
  | serviceNoTime
  | serviceModCompleted (rid svc : Str)
  | staffNotSelectable2
  | staffUpdateFailed
  | staffModCompleted (rid stf : Str)
  | modError
deriving Repr

/-- Calls issued to the persistence collaborators, with their outcome. -/
inductive Effect
  | calendarCreate (ok : Bool)
  | sheetsSaveReservation (ok : Bool)
  | sheetsCancelStatus (rid : Str) (ok : Bool)
  | calendarDeleteEvent (rid : Str) (ok : Bool)
  | calendarModifyTime (date startT : Str) (ok : Bool)
  | sheetsUpdateTime (rid startT endT : Str) (dateChanged ok : Bool)
  | sheetsUpdateService (rid svc : Str) (ok : Bool)
  | sheetsUpdateStaff (rid stf : Str) (ok : Bool)
deriving Repr, DecidableEq

/-- Keyword tables and reference data loaded from the JSON data files
(absent from the sources; carried as parameters). -/
structure Config where
  flowCancelKws : List Str
  serviceChangeKws : List Str
  dateChangeKws : List Str
  timeChangeKws : List Str
  staffChangeKws : List Str
  yesKws : List Str
  noKws : List Str
  intentReservationKws : List Str
  intentModifyKws : List Str
  intentCancelKws : List Str
  staffKeywords : List (Str × List Str)
  services : List (Str × Nat)
  staffNames : List Str

/-- `self.services.get(name, {}).get("duration", 60)`. -/
def serviceDuration (cfg : Config) (name : Str) : Nat :=
  match cfg.services.find? (fun p => p.1 == name) with
  | some p => p.2
  | none => 60

/-- External collaborators (calendar, sheets, LINE profile, clock). -/
structure Env where
  calendarOk : Bool
  sheetsOk : Bool
  displayName : Str
  newReservationId : Str
  userReservations : List Reservation
  availableSlots : Str → List StrSlot
  slotsForModification : Str → Str → List (Nat × Nat)
  slotsForService : Str → Str → Str → List (Nat × Nat)
  today : Nat × Nat × Nat

/-- Result of handling one message: the user's session entry afterwards
(`none` = deleted), the reply, and the persistence calls made. -/
abbrev HandlerResult := Option Session × Reply × List Effect

/-- Python `str.lower()` (ASCII case folding; other characters unchanged,
as for the Japanese keywords). -/
def lowerStr (s : Str) : Str := s.map Char.toLower

/-- The hard-coded `service_mapping` of `_handle_service_selection`. -/
def serviceMapping : List (Str × Str) :=
  [ (['カ', 'ッ', 'ト'], ['カ', 'ッ', 'ト']),
    (['カ', 'ラ', 'ー'], ['カ', 'ラ', 'ー']),
    (['パ', 'ー', 'マ'], ['パ', 'ー', 'マ']),
    (['ト', 'リ', 'ー', 'ト', 'メ', 'ン', 'ト'], ['ト', 'リ', 'ー', 'ト', 'メ', 'ン', 'ト']),
    (['c', 'u', 't'], ['カ', 'ッ', 'ト']),
    (['c', 'o', 'l', 'o', 'r'], ['カ', 'ラ', 'ー']),
    (['p', 'e', 'r', 'm'], ['パ', 'ー', 'マ']),
    (['t', 'r', 'e', 'a', 't', 'm', 'e', 'n', 't'], ['ト', 'リ', 'ー', 'ト', 'メ', 'ン', 'ト']) ]

/-- `re.match(r"^RES-\d{8}-\d{4}$", message)`. -/
def isResIdFormat : Str → Bool
  | 'R' :: 'E' :: 'S' :: '-' :: d1 :: d2 :: d3 :: d4 :: d5 :: d6 :: d7 :: d8
      :: '-' :: e1 :: e2 :: e3 :: e4 :: [] =>
    [d1, d2, d3, d4, d5, d6, d7, d8, e1, e2, e3, e4].all Char.isDigit
  | _ => false

/-- Python `str.isdigit()` (restricted to ASCII digits, which is what the
flow's numeric selections use). -/
def isDigitsStr (m : Str) : Bool := !m.isEmpty && m.all Char.isDigit

/-- One `\d{4}-\d{2}-\d{2}` match attempt at the head of the string. -/
def takeYMD : Str → Option Str
  | y1 :: y2 :: y3 :: y4 :: '-' :: m1 :: m2 :: '-' :: d1 :: d2 :: _ =>
    if ([y1, y2, y3, y4, m1, m2, d1, d2].all Char.isDigit) then
      some [y1, y2, y3, y4, '-', m1, m2, '-', d1, d2]
    else none
  | _ => none

/-- `re.search(r'(\d{4}-\d{2}-\d{2})', message)`: leftmost match. -/
def searchYMD : Str → Option Str
  | [] => none
  | c :: cs =>
    match takeYMD (c :: cs) with
    | some d => some d
    | none => searchYMD cs

/-- `re.match(r'^(\d{4})-(\d{2})-(\d{2})$', message)`. -/
def isYMDFormat : Str → Bool
  | [y1, y2, y3, y4, '-', m1, m2, '-', d1, d2] =>
    [y1, y2, y3, y4, m1, m2, d1, d2].all Char.isDigit
  | _ => false

/-- Days of each month, with the Gregorian leap rule. -/
def daysInMonth (y m : Nat) : Nat :=
  if m = 2 then (if y % 4 = 0 ∧ (y % 100 ≠ 0 ∨ y % 400 = 0) then 29 else 28)
  else if m = 1 ∨ m = 3 ∨ m = 5 ∨ m = 7 ∨ m = 8 ∨ m = 10 ∨ m = 12 then 31
  else 30

/-- Year, month, day values of a well-formed `YYYY-MM-DD` string. -/
def ymdOf (d : Str) : Nat × Nat × Nat :=
  match d with
  | [y1, y2, y3, y4, _, m1, m2, _, d1, d2] =>
    (digitsVal [y1, y2, y3, y4], digitsVal [m1, m2], digitsVal [d1, d2])
  | _ => (0, 0, 0)

/-- `datetime.strptime(d, "%Y-%m-%d")` succeeds on a well-formed string. -/
def validYMD (d : Str) : Bool :=
  let (y, m, dd) := ymdOf d
  decide (1 ≤ y) && decide (1 ≤ m) && decide (m ≤ 12) && decide (1 ≤ dd)
    && decide (dd ≤ daysInMonth y m)

/-- Day of week, Sunday = 0 (Sakamoto's method). -/
def dowSun0 (y m d : Nat) : Nat :=
  let t := [0, 3, 2, 5, 0, 3, 5, 1, 4, 6, 2, 4]
  let y2 := if m < 3 then y - 1 else y
  (y2 + y2 / 4 - y2 / 100 + y2 / 400 + t.getD (m - 1) 0 + d) % 7

/-- Python `date.weekday()`: Monday = 0 ... Sunday = 6. -/
def pyWeekday (y m d : Nat) : Nat := (dowSun0 y m d + 6) % 7

/-- `date_obj.weekday() == 6`. -/
def isSundayYMD (d : Str) : Bool :=
  let (y, m, dd) := ymdOf d
  pyWeekday y m dd == 6

/-- `date_obj.date() < datetime.now().date()`. -/
def isPastYMD (today : Nat × Nat × Nat) (d : Str) : Bool :=
  let (y, m, dd) := ymdOf d
  decide (y < today.1 ∨ (y = today.1 ∧ (m < today.2.1 ∨ (m = today.2.1 ∧ dd < today.2.2))))

/-- `_start_reservation`: advance to service selection and list services. -/
def startReservation (sess : Session) : HandlerResult :=
  (some { sess with step := .serviceSelection }, .serviceList, [])

/-- `_handle_service_selection` (lines 218-263). -/
def handleServiceSelection (cfg : Config) (sess : Session) (msg : Str) : HandlerResult :=
  let m := stripChars msg
  if containsAnyKw cfg.flowCancelKws m then (none, .createFlowCancelled, [])
  else
    match serviceMapping.find? (fun p => strContains (lowerStr m) (lowerStr p.1)) with
    | none => (some sess, .serviceNotOffered, [])
    | some p =>
      (some { sess with service := some p.2, step := .staffSelection }, .staffList, [])

/-- `_handle_staff_selection` (lines 265-299). -/
def handleStaffSelection (cfg : Config) (sess : Session) (msg : Str) : HandlerResult :=
  let m := stripChars msg
  if containsAnyKw cfg.flowCancelKws m then (none, .createFlowCancelled, [])
  else if containsAnyKw cfg.serviceChangeKws m then
    startReservation { sess with step := .serviceSelection }
  else
    match cfg.staffKeywords.find? (fun p => containsAnyKw p.2 (lowerStr m)) with
    | none => (some sess, .staffNotSelectable, [])
    | some p =>
      (some { sess with staff := some p.1, step := .dateSelection }, .calendarTemplate, [])

/-- `_handle_date_selection` (lines 301-373); the date regex is searched in
the raw message. -/
def handleDateSelection (cfg : Config) (env : Env) (sess : Session) (msg : Str) :
    HandlerResult :=
  let m := stripChars msg
  if containsAnyKw cfg.flowCancelKws m then (none, .createFlowCancelled, [])
  else if containsAnyKw cfg.serviceChangeKws m then
    startReservation { sess with step := .serviceSelection }
  else
    match searchYMD msg with
    | none => (some sess, .dateFormatError, [])
    | some d =>
      if validYMD d then
        let periods := (env.availableSlots d).filter (fun s => s.available)
        if periods.isEmpty then
          (some { sess with date := some d, step := .dateSelection }, .noSlotsForDate, [])
        else
          (some { sess with date := some d, step := .timeSelection }, .timePrompt, [])
      else (some sess, .dateFormatError, [])

/-- `available_periods` as string pairs: the slots of the selected date
with `available == True`. -/
def availablePeriodsOf (env : Env) (sess : Session) : List (Str × Str) :=
  ((env.availableSlots (sess.date.getD [])).filter (fun s => s.available)).map
    (fun s => (s.time, s.endTime))

/-- `_handle_time_selection` (lines 375-539).  Comparisons of `"HH:MM"`
strings (`start_time >= end_time`, `period_start <= start_time`,
`end_time <= period_end`) are Python string comparisons, hence `strLt` /
`strLe`. -/
def handleTimeSelection (cfg : Config) (env : Env) (sess : Session) (msg : Str) :
    HandlerResult :=
  let m := stripChars msg
  if containsAnyKw cfg.flowCancelKws m then (none, .createFlowCancelled, [])
  else if containsAnyKw cfg.dateChangeKws m then
    (some { sess with step := .dateSelection }, .calendarTemplate, [])
  else
    let periods := availablePeriodsOf env sess
    match parseTimeRange m with
    | none => (some { sess with originalEndTime := some none }, .timeFormatError, [])
    | some (s, e) =>
      let sess1 : Session := { sess with originalEndTime := some (some e) }
      if !(strLt s e) then
        (some { sess1 with step := .timeSelection }, .invertedRange s e, [])
      else if !(periods.any (fun p => strLe p.1 s && strLe e p.2)) then
        (some sess1, .outsideAvailability s e, [])
      else
        let requiredDuration := serviceDuration cfg (sess1.service.getD [])
        let dur := timeDurationMinutes s e
        let adjusted :=
          if dur > (requiredDuration : Int) then
            let opt := optimalEndTime s requiredDuration
            if periods.any (fun p => strLe p.1 s && strLe opt p.2) then
              (opt, (requiredDuration : Int))
            else (e, dur)
          else (e, dur)
        if adjusted.2 < (requiredDuration : Int) then
          (some { sess1 with step := .timeSelection }, .tooShort s e adjusted.2, [])
        else
          (some { sess1 with
                    startTime := some s, endTime := some adjusted.1,
                    timeField := some s, step := .confirmation },
            .confirmPrompt s adjusted.1 (decide (adjusted.1 ≠ e)), [])

/-- `_handle_confirmation` (lines 541-615): an affirmative keyword commits
(calendar event, sheets row — both attempted unconditionally, failures only
logged) and keeps the session (cleared later by `index.py`); any other
input returns the cancellation text but leaves the session untouched. -/
def handleConfirmation (cfg : Config) (env : Env) (sess : Session) (msg : Str) :
    HandlerResult :=
  if containsAnyKw cfg.yesKws msg then
    let rid := env.newReservationId
    (some { sess with reservationId := some rid },
      .reservationConfirmed rid,
      [Effect.calendarCreate env.calendarOk, Effect.sheetsSaveReservation env.sheetsOk])
  else
    (some sess, .createFlowCancelled, [])

/-- `handle_reservation_flow` (lines 166-194): the flow-cancel interrupt is
checked before dispatching on the step. -/
def handleReservationFlow (cfg : Config) (env : Env) (sessO : Option Session) (msg : Str) :
    HandlerResult :=
  let sess := sessO.getD { step := Step.start }
  let m := stripChars msg
  if containsAnyKw cfg.flowCancelKws m then (none, .createFlowCancelled, [])
  else
    match sess.step with
    | .start => startReservation sess
    | .serviceSelection => handleServiceSelection cfg sess msg
    | .staffSelection => handleStaffSelection cfg sess msg
    | .dateSelection => handleDateSelection cfg env sess msg
    | .timeSelection => handleTimeSelection cfg env sess msg
    | .confirmation => handleConfirmation cfg env sess msg
    | _ => (some sess, .flowError, [])

/-- `_show_user_reservations_for_cancellation` (lines 679-716). -/
def showUserReservationsForCancellation (env : Env) (sess : Session) : HandlerResult :=
  if env.userReservations.isEmpty then (some sess, .noReservationsFound, [])
  else
    (some { sess with userReservations := env.userReservations }, .reservationListCancel, [])

/-- `_handle_cancel_reservation_selection` (lines 718-797). -/
def handleCancelReservationSelection (sess : Session) (msg : Str) : HandlerResult :=
  let reservations := sess.userReservations
  if isResIdFormat msg then
    match reservations.find? (fun r => r.reservationId == msg) with
    | some r =>
      (some { sess with selectedReservation := some r, step := .cancelConfirm },
        .cancelConfirmPrompt r, [])
    | none => (some sess, .resIdNotFound, [])
  else if isDigitsStr msg then
    let n := digitsVal msg
    if 1 ≤ n ∧ n ≤ reservations.length then
      match reservations[n - 1]? with
      | some r =>
        (some { sess with selectedReservation := some r, step := .cancelConfirm },
          .cancelConfirmPrompt r, [])
      | none => (some sess, .invalidSelectionNumber, [])
    else (some sess, .invalidSelectionNumber, [])
  else (some sess, .invalidSelectionFormat, [])

/-- `_execute_reservation_cancellation` (lines 818-853): sheets first (a
failure aborts with the session kept), then the calendar (a failure only
logged), then the session is deleted. -/
def executeReservationCancellation (env : Env) (sess : Session) (r : Reservation) :
    HandlerResult :=
  if !env.sheetsOk then
    (some sess, .cancelProcessError, [Effect.sheetsCancelStatus r.reservationId false])
  else
    (none, .cancelCompleted r,
      [Effect.sheetsCancelStatus r.reservationId true,
       Effect.calendarDeleteEvent r.reservationId env.calendarOk])

/-- `_handle_cancel_confirmation` (lines 799-816).  (A missing
`selected_reservation` key would raise in Python; it cannot occur in the
states this handler is dispatched from.) -/
def handleCancelConfirmation (cfg : Config) (env : Env) (sess : Session) (msg : Str) :
    HandlerResult :=
  match sess.selectedReservation with
  | none => (some sess, .cancelProcessError, [])
  | some r =>
    if containsAnyKw cfg.yesKws msg then executeReservationCancellation env sess r
    else if containsAnyKw cfg.noKws msg then (none, .cancelOfCancelKeepRes, [])
    else (some sess, .cancelConfirmReprompt, [])

/-- `_handle_cancel_request` (lines 651-677): flow-cancel interrupt first
(guarded by `if message:`), then dispatch or start the flow. -/
def handleCancelRequest (cfg : Config) (env : Env) (sessO : Option Session) (msg : Str) :
    HandlerResult :=
  if !msg.isEmpty && containsAnyKw cfg.flowCancelKws (stripChars msg) then
    (none, .cancelFlowCancelled, [])
  else
    match sessO with
    | some sess =>
      if sess.step = .cancelSelectReservation then handleCancelReservationSelection sess msg
      else if sess.step = .cancelConfirm then handleCancelConfirmation cfg env sess msg
      else showUserReservationsForCancellation env { step := .cancelSelectReservation }
    | none => showUserReservationsForCancellation env { step := .cancelSelectReservation }

/-- `_show_user_reservations_for_modification` (lines 959-995). -/
def showUserReservationsForModification (env : Env) (sess : Session) : HandlerResult :=
  if env.userReservations.isEmpty then (some sess, .noReservationsFound, [])
  else
    (some { sess with userReservations := env.userReservations }, .reservationListModify, [])

/-- `_handle_modify_reservation_selection` (lines 997-1076). -/
def handleModifyReservationSelection (sess : Session) (msg : Str) : HandlerResult :=
  let reservations := sess.userReservations
  if isResIdFormat msg then
    match reservations.find? (fun r => r.reservationId == msg) with
    | some r =>
      (some { sess with reservationData := some r, step := .modifySelectField },
        .modifyFieldPrompt r, [])
    | none => (some sess, .resIdNotFound, [])
  else if isDigitsStr msg then
    let n := digitsVal msg
    if 1 ≤ n ∧ n ≤ reservations.length then
      match reservations[n - 1]? with
      | some r =>
        (some { sess with reservationData := some r, step := .modifySelectField },
          .modifyFieldPrompt r, [])
      | none => (some sess, .invalidSelectionNumber, [])
    else (some sess, .invalidSelectionNumber, [])
  else (some sess, .invalidSelectionFormat, [])

/-- `_handle_time_modification` (lines 1123-1148). -/
def handleTimeModification (sess : Session) (r : Reservation) : HandlerResult :=
  (some { sess with modificationType := some .time, step := .modifyTimeDateSelect },
    .timeModPrompt r, [])

/-- `_handle_service_modification` (lines 1242-1264). -/
def handleServiceModificationPrompt (sess : Session) (r : Reservation) : HandlerResult :=
  (some { sess with modificationType := some .service, step := .modifyConfirm },
    .serviceModPrompt r, [])

/-- `_handle_staff_modification` (lines 1266-1288). -/
def handleStaffModificationPrompt (sess : Session) (r : Reservation) : HandlerResult :=
  (some { sess with modificationType := some .staff, step := .modifyConfirm },
    .staffModPrompt r, [])

/-- `_handle_field_selection` (lines 1078-1121). -/
def handleFieldSelection (cfg : Config) (sess : Session) (msg : Str) : HandlerResult :=
  match sess.reservationData with
  | none => (some sess, .modError, [])
  | some r =>
    let m := stripChars msg
    if m = ['1'] then handleTimeModification sess r
    else if m = ['2'] then handleServiceModificationPrompt sess r
    else if m = ['3'] then handleStaffModificationPrompt sess r
    else
      let ml := lowerStr m
      if containsAnyKw (cfg.timeChangeKws.map lowerStr) ml then
        handleTimeModification sess r
      else if containsAnyKw (cfg.serviceChangeKws.map lowerStr) ml then
        handleServiceModificationPrompt sess r
      else if containsAnyKw (cfg.staffChangeKws.map lowerStr) ml then
        handleStaffModificationPrompt sess r
      else (some sess, .modifyFieldReprompt, [])

/-- `_show_available_times_for_date` (lines 1209-1240): stores the selected
date and the slots and moves to `modify_confirm`. -/
def showAvailableTimesForDate (env : Env) (sess : Session) (r : Reservation) (date : Str) :
    HandlerResult :=
  let slots := env.slotsForModification date r.reservationId
  if slots.isEmpty then (some sess, .noTimesForDate date, [])
  else
    (some { sess with
              selectedDate := some date, availableSlots := slots,
              step := .modifyConfirm },
      .availableTimesList date, [])

/-- `_handle_time_date_selection` (lines 1150-1179). -/
def handleTimeDateSelection (env : Env) (sess : Session) (msg : Str) : HandlerResult :=
  match sess.reservationData with
  | none => (some sess, .modError, [])
  | some r =>
    if stripChars msg = ['1'] then showAvailableTimesForDate env sess r r.date
    else if stripChars msg = ['2'] then
      (some { sess with step := .modifyTimeInputDate }, .newDatePrompt, [])
    else (some sess, .chooseNumberReprompt, [])

/-- `_handle_time_input_date` (lines 1181-1207). -/
def handleTimeInputDate (env : Env) (sess : Session) (msg : Str) : HandlerResult :=
  let m := stripChars msg
  if !(isYMDFormat m) then (some sess, .newDateFormatError, [])
  else if !(validYMD m) then (some sess, .newDateFormatError, [])
  else if isSundayYMD m then (some sess, .sundayClosed, [])
  else if isPastYMD env.today m then (some sess, .pastDate, [])
  else
    match sess.reservationData with
    | none => (some sess, .modError, [])
    | some r => showAvailableTimesForDate env sess r m

/-- `_process_time_modification` (lines 1314-1406).  The "correct" end is
start plus the service duration, formatted by `strftime` (hence modulo one
day); the slot-containment test compares unwrapped datetimes; if the typed
duration differs from the service duration the end is silently replaced. -/
def processTimeModification (cfg : Config) (env : Env) (sess : Session) (r : Reservation)
    (msg : Str) : HandlerResult :=
  match parseTimeRange msg with
  | none => (some sess, .timeModFormatError, [])
  | some (s, e) =>
    let selectedDate := sess.selectedDate.getD r.date
    let dur := serviceDuration cfg r.service
    match parseHMChars s, parseHMChars e with
    | some sMin, some eMin =>
      let correctEnd := formatHM ((sMin + dur) % 1440)
      if !(sess.availableSlots.any (fun p =>
          decide (p.1 ≤ sMin) && decide (sMin + dur ≤ p.2))) then
        (some sess, .timeNotAvailable, [])
      else if (eMin : Int) - (sMin : Int) ≤ 0 then
        (some sess, .endBeforeStart, [])
      else
        let endT := if (eMin : Int) - (sMin : Int) ≠ (dur : Int) then correctEnd else e
        if !env.calendarOk then
          (some sess, .calendarUpdateFailed, [Effect.calendarModifyTime selectedDate s false])
        else
          (none, .timeModCompleted r.reservationId selectedDate s endT,
            [Effect.calendarModifyTime selectedDate s true,
             Effect.sheetsUpdateTime r.reservationId s endT
               (decide (selectedDate ≠ r.date)) env.sheetsOk])
    | _, _ => (some sess, .timeModDurationError, [])

/-- `_process_service_modification` (lines 1408-1482). -/
def processServiceModification (cfg : Config) (env : Env) (sess : Session) (r : Reservation)
    (msg : Str) : HandlerResult :=
  let m := stripChars msg
  let newService :=
    if cfg.services.any (fun p => p.1 == m) then some m
    else match cfg.services.find? (fun p => lowerStr p.1 == lowerStr m) with
      | some p => some p.1
      | none =>
        match cfg.services.find? (fun p => strContains p.1 m || strContains m p.1) with
        | some p => some p.1
        | none => none
  match newService with
  | none => (some sess, .serviceNotOffered2, [])
  | some svc =>
    if (env.slotsForService r.date svc r.reservationId).isEmpty then
      (some sess, .serviceNoTime, [])
    else if !env.calendarOk then
      (some sess, .calendarUpdateFailed, [Effect.calendarModifyTime r.date r.startTime false])
    else
      (none, .serviceModCompleted r.reservationId svc,
        [Effect.calendarModifyTime r.date r.startTime true,
         Effect.sheetsUpdateService r.reservationId svc env.sheetsOk])

/-- `_process_staff_modification` (lines 1484-1531). -/
def processStaffModification (cfg : Config) (env : Env) (sess : Session) (r : Reservation)
    (msg : Str) : HandlerResult :=
  let m := stripChars msg
  let newStaff :=
    if cfg.staffNames.any (fun n => n == m) then some m
    else match cfg.staffNames.find? (fun n => lowerStr n == lowerStr m) with
      | some n => some n
      | none =>
        match cfg.staffNames.find? (fun n => strContains n m || strContains m n) with
        | some n => some n
        | none => none
  match newStaff with
  | none => (some sess, .staffNotSelectable2, [])
  | some stf =>
    if !env.sheetsOk then
      (some sess, .staffUpdateFailed, [Effect.sheetsUpdateStaff r.reservationId stf false])
    else
      (none, .staffModCompleted r.reservationId stf,
        [Effect.sheetsUpdateStaff r.reservationId stf true])

/-- `_handle_modification_confirmation` (lines 1290-1312). -/
def handleModificationConfirmation (cfg : Config) (env : Env) (sess : Session) (msg : Str) :
    HandlerResult :=
  match sess.reservationData, sess.modificationType with
  | some r, some .time => processTimeModification cfg env sess r msg
  | some r, some .service => processServiceModification cfg env sess r msg
  | some r, some .staff => processStaffModification cfg env sess r msg
  | _, _ => (some sess, .modError, [])

/-- `_handle_modify_request` (lines 919-957): flow-cancel interrupt first,
then dispatch or start the flow. -/
def handleModifyRequest (cfg : Config) (env : Env) (sessO : Option Session) (msg : Str) :
    HandlerResult :=
  if containsAnyKw cfg.flowCancelKws (stripChars msg) then (none, .modifyFlowCancelled, [])
  else
    match sessO with
    | some sess =>
      match sess.step with
      | .modifySelectReservation => handleModifyReservationSelection sess msg
      | .modifySelectField => handleFieldSelection cfg sess msg
      | .modifyTimeDateSelect => handleTimeDateSelection env sess msg
      | .modifyTimeInputDate => handleTimeInputDate env sess msg
      | .modifyConfirm => handleModificationConfirmation cfg env sess msg
      | _ => showUserReservationsForModification env { step := .modifySelectReservation }
    | none => showUserReservationsForModification env { step := .modifySelectReservation }

/-- The create-flow steps listed by `detect_intent` (line 132). -/
def createSteps : List Step :=
  [.serviceSelection, .staffSelection, .dateSelection, .timeSelection, .confirmation]

/-- The cancel-flow steps (prefix `cancel_` in line 135). -/
def cancelSteps : List Step := [.cancelSelectReservation, .cancelConfirm]

/-- The modify-flow steps (prefix `modify_` in line 135). -/
def modifySteps : List Step :=
  [.modifySelectReservation, .modifySelectField, .modifyTimeDateSelect,
   .modifyTimeInputDate, .modifyConfirm]

/-- Every step an in-flow stored session can carry. -/
def inFlowSteps : List Step := createSteps ++ cancelSteps ++ modifySteps

/-- The routing decision of `detect_intent` (lines 121-164). -/
inductive Intent
  | reservation
  | reservationFlow
  | modify
  | cancel
  | general
deriving Repr, DecidableEq

/-- `detect_intent`: in-flow steps route to their flow; otherwise the
reservation-id format and the intent keyword lists decide. -/
def detectIntent (cfg : Config) (sessO : Option Session) (msg : Str) : Intent :=
  let m := stripChars msg
  let fromKeywords : Intent :=
    if isResIdFormat m then .general
    else if containsAnyKw cfg.intentReservationKws m then .reservation
    else if containsAnyKw cfg.intentModifyKws m then .modify
    else if containsAnyKw cfg.intentCancelKws m then .cancel
    else .general
  match sessO with
  | some st =>
    if st.step ∈ createSteps then .reservationFlow
    else if st.step ∈ cancelSteps then .cancel
    else if st.step ∈ modifySteps then .modify
    else fromKeywords
  | none => fromKeywords

/-- `get_response` (lines 617-630), the facade entry point for one user:
returns the updated session entry, the reply (`none` hands the message to
the FAQ collaborator), and the persistence calls. -/
def getResponse (cfg : Config) (env : Env) (sessO : Option Session) (msg : Str) :
    Option Session × Option Reply × List Effect :=
  match detectIntent cfg sessO msg with
  | .reservation => (fun x => (x.1, some x.2.1, x.2.2)) (handleReservationFlow cfg env sessO msg)
  | .reservationFlow =>
    (fun x => (x.1, some x.2.1, x.2.2)) (handleReservationFlow cfg env sessO msg)
  | .modify => (fun x => (x.1, some x.2.1, x.2.2)) (handleModifyRequest cfg env sessO msg)
  | .cancel => (fun x => (x.1, some x.2.1, x.2.2)) (handleCancelRequest cfg env sessO msg)
  | .general => (sessO, none, [])

theorem parseHM_formatHM (m : Nat) : parseHMChars (formatHM m) = some m := by
  unfold parseHMChars formatHM
  rw [splitColon_append _ _ (colon_not_in_pad2 _)]
  rw [splitColon_no_colon _ (colon_not_in_pad2 _)]
  dsimp only
  rw [if_pos]
  · rw [digitsVal_pad2, digitsVal_pad2]
    congr 1
    omega
  · refine ⟨pad2_ne_nil _, pad2_ne_nil _, ?_, ?_⟩ <;>
      · rw [List.all_eq_true]
        intro c hc
        exact pad2_all_digits _ c hc

/-- C7: from every in-flow (non-terminal) stored step of the Create, Modify
and Cancel flows, a message containing any flow-cancel keyword is handled
before state-specific parsing: the session entry is deleted, the reply is
the flow's cancellation message, and no persistence call is made. -/
theorem C7_interrupt_aborts (cfg : Config) (env : Env) (sess : Session) (msg : Str)
    (k : Str)
    (hstep : sess.step ∈ inFlowSteps)
    (hk : k ∈ cfg.flowCancelKws)
    (hkne : k ≠ [])
    (hinf : k <:+: stripChars msg) :
    (getResponse cfg env (some sess) msg).1 = none ∧
    (getResponse cfg env (some sess) msg).2.1 ∈
      ([some Reply.createFlowCancelled, some Reply.modifyFlowCancelled,
        some Reply.cancelFlowCancelled] : List (Option Reply)) ∧
    (getResponse cfg env (some sess) msg).2.2 = ([] : List Effect) := by
  have hca : containsAnyKw cfg.flowCancelKws (stripChars msg) = true := by
    unfold containsAnyKw strContains
    rw [List.any_eq_true]
    exact ⟨k, hk, decide_eq_true hinf⟩
  have hstrip : stripChars msg ≠ [] := by
    intro h0
    rw [h0] at hinf
    obtain ⟨p, q, hpq⟩ := hinf
    rcases List.append_eq_nil.mp hpq with ⟨hpk, -⟩
    rcases List.append_eq_nil.mp hpk with ⟨-, hknil⟩
    exact hkne hknil
  have hmsgne : msg.isEmpty = false := by
    cases msg with
    | nil => exact absurd rfl hstrip
    | cons c cs => rfl
  cases hs : sess.step
  case start =>
    rw [hs] at hstep
    simp [inFlowSteps, createSteps, cancelSteps, modifySteps] at hstep
  all_goals
    simp [getResponse, detectIntent, handleReservationFlow, handleModifyRequest,
      handleCancelRequest, createSteps, cancelSteps, modifySteps, hs, hca, hmsgne]

/-- Fixed keyword/service configuration for concrete runs. -/
def testCfg : Config where
  flowCancelKws := [['X']]
  serviceChangeKws := [['S', 'V']]
  dateChangeKws := [['D', 'C']]
  timeChangeKws := [['T', 'C']]
  staffChangeKws := [['F', 'C']]
  yesKws := [['y', 'e', 's']]
  noKws := [['n', 'o']]
  intentReservationKws := [['b', 'o', 'o', 'k']]
  intentModifyKws := [['m', 'o', 'd']]
  intentCancelKws := [['X']]
  staffKeywords := [(['田', '中'], [['田', '中']])]
  services := [(['c', 'u', 't'], 60), (['p', 'e', 'r', 'm'], 90)]
  staffNames := [['田', '中']]

/-- Fixed collaborator environment for concrete runs. -/
def testEnv : Env where
  calendarOk := true
  sheetsOk := true
  displayName := ['客']
  newReservationId := ['R', '1']
  userReservations := []
  availableSlots := fun _ =>
    [⟨['d'], ['0', '9', ':', '0', '0'], ['1', '2', ':', '0', '0'], true⟩]
  slotsForModification := fun _ _ => [(540, 720)]
  slotsForService := fun _ _ _ => [(540, 720)]
  today := (2025, 1, 1)

/-- C4 counterexample: the message `"9:00~10:00"` parses, its start 9:00 is
strictly earlier than its end 10:00 as clock times (540 < 600 minutes), yet
`_handle_time_selection` rejects it as an inverted range, because
`start_time >= end_time` compares the strings `"9:00"` and `"10:00"`
lexicographically and `'9' > '1'`. -/
theorem C4_counterexample :
    parseTimeRange ['9', ':', '0', '0', '~', '1', '0', ':', '0', '0']
        = some (['9', ':', '0', '0'], ['1', '0', ':', '0', '0'])
    ∧ parseHMChars ['9', ':', '0', '0'] = some 540
    ∧ parseHMChars ['1', '0', ':', '0', '0'] = some 600
    ∧ 540 < 600
    ∧ (handleTimeSelection testCfg testEnv
        { step := Step.timeSelection, service := some ['c', 'u', 't'], date := some ['d'] }
        ['9', ':', '0', '0', '~', '1', '0', ':', '0', '0']).2.1
      = Reply.invertedRange ['9', ':', '0', '0'] ['1', '0', ':', '0', '0'] := by
  refine ⟨by decide, by decide, by decide, by decide, ?_⟩
  rfl

/-- C4 amended: for every successfully parsed pair, the time-selection step
rejects the request as an inverted range exactly when the start string is
lexicographically not below the end string (Python string `>=`); for
zero-padded two-digit-hour inputs this coincides with clock order, but a
one-digit-hour pair such as `9:00~10:00` is rejected even though its start
is the earlier clock time. -/
theorem C4_inverted_iff_string_ge (cfg : Config) (env : Env) (sess : Session) (msg : Str)
    (s e : Str)
    (h1 : containsAnyKw cfg.flowCancelKws (stripChars msg) = false)
    (h2 : containsAnyKw cfg.dateChangeKws (stripChars msg) = false)
    (hp : parseTimeRange (stripChars msg) = some (s, e)) :
    ((handleTimeSelection cfg env sess msg).2.1 = Reply.invertedRange s e
      ↔ strLt s e = false)
    ∧ (strLt s e = false →
        handleTimeSelection cfg env sess msg
          = (some { sess with originalEndTime := some (some e), step := .timeSelection },
             Reply.invertedRange s e, [])) := by
  unfold handleTimeSelection
  simp only [h1, h2, hp, Bool.false_eq_true, if_false]
  by_cases hcmp : strLt s e
  · simp only [hcmp, Bool.not_true, Bool.false_eq_true, if_false]
    refine ⟨⟨fun hbad => ?_, fun hfalse => ?_⟩, fun hfalse => ?_⟩
    · exfalso
      revert hbad
      split_ifs <;> simp
    · cases hfalse
    · cases hfalse
  · have hfalse : strLt s e = false := by
      cases hval : strLt s e
      · rfl
      · exact absurd hval hcmp
    simp only [hfalse, Bool.not_false, if_true]
    simp

/-- Witness for the amended C4: with `"10:00~09:00"` (start string above
end string) the handler replies with the inverted-range rejection. -/
theorem C4_inverted_iff_string_ge_witness :
    (strLt ['1', '0', ':', '0', '0'] ['0', '9', ':', '0', '0'] = false) ∧
    handleTimeSelection testCfg testEnv
        { step := Step.timeSelection, service := some ['c', 'u', 't'], date := some ['d'] }
        ['1', '0', ':', '0', '0', '~', '0', '9', ':', '0', '0']
      = (some { step := Step.timeSelection, service := some ['c', 'u', 't'],
                date := some ['d'],
                originalEndTime := some (some ['0', '9', ':', '0', '0']) },
         Reply.invertedRange ['1', '0', ':', '0', '0'] ['0', '9', ':', '0', '0'], []) :=
  ⟨by decide,
    (C4_inverted_iff_string_ge testCfg testEnv
      { step := Step.timeSelection, service := some ['c', 'u', 't'], date := some ['d'] }
      ['1', '0', ':', '0', '0', '~', '0', '9', ':', '0', '0']
      ['1', '0', ':', '0', '0'] ['0', '9', ':', '0', '0']
      (by decide) (by decide) (by decide)).2 (by decide)⟩

/-- C5: when the parsed range lies inside an available period and is
strictly longer than the service duration, and the trimmed range still lies
inside a period, the accepted end time is start plus the service duration
(`_calculate_optimal_end_time`), the session advances to confirmation with
exactly that end stored, and the stored interval's duration equals the
service duration exactly. -/
theorem C5_auto_trim_exact (cfg : Config) (env : Env) (sess : Session) (msg : Str)
    (s e : Str) (a : Nat)
    (h1 : containsAnyKw cfg.flowCancelKws (stripChars msg) = false)
    (h2 : containsAnyKw cfg.dateChangeKws (stripChars msg) = false)
    (hp : parseTimeRange (stripChars msg) = some (s, e))
    (hlt : strLt s e = true)
    (hcont : (availablePeriodsOf env sess).any
        (fun p => strLe p.1 s && strLe e p.2) = true)
    (hdur : timeDurationMinutes s e > (serviceDuration cfg (sess.service.getD []) : Int))
    (hopt : (availablePeriodsOf env sess).any
        (fun p => strLe p.1 s
          && strLe (optimalEndTime s (serviceDuration cfg (sess.service.getD []))) p.2)
        = true)
    (ha : parseHMChars s = some a) :
    handleTimeSelection cfg env sess msg
      = (some { sess with
                  originalEndTime := some (some e),
                  startTime := some s,
                  endTime := some (formatHM (a + serviceDuration cfg (sess.service.getD []))),
                  timeField := some s, step := .confirmation },
         Reply.confirmPrompt s (formatHM (a + serviceDuration cfg (sess.service.getD [])))
           (decide (formatHM (a + serviceDuration cfg (sess.service.getD [])) ≠ e)), [])
    ∧ timeDurationMinutes s (formatHM (a + serviceDuration cfg (sess.service.getD [])))
        = (serviceDuration cfg (sess.service.getD []) : Int) := by
  have hoe : optimalEndTime s (serviceDuration cfg (sess.service.getD []))
      = formatHM (a + serviceDuration cfg (sess.service.getD [])) := by
    unfold optimalEndTime
    rw [ha]
  have hopt2 : ((availablePeriodsOf env sess).any fun p =>
      strLe p.1 s
        && strLe (formatHM (a + serviceDuration cfg (sess.service.getD []))) p.2) = true := by
    rw [← hoe]
    exact hopt
  constructor
  · unfold handleTimeSelection
    simp only [h1, h2, hp, Bool.false_eq_true, if_false, hlt, Bool.not_true, hcont,
      if_pos hdur, hoe, hopt2, if_true]
    rw [if_neg (lt_irrefl _)]
  · unfold timeDurationMinutes
    rw [ha, parseHM_formatHM]
    push_cast
    ring

/-- Witness for C5, the spec's scenario: service duration 90, free window
09:00-12:00, user selects 10:00-12:00; accepted with end 11:30 and stored
duration 90. -/
theorem C5_auto_trim_exact_witness :
    formatHM (600 + serviceDuration testCfg (['p', 'e', 'r', 'm'])) = ['1', '1', ':', '3', '0']
    ∧ handleTimeSelection testCfg testEnv
        { step := Step.timeSelection, service := some ['p', 'e', 'r', 'm'], date := some ['d'] }
        ['1', '0', ':', '0', '0', '~', '1', '2', ':', '0', '0']
      = (some { step := Step.confirmation, service := some ['p', 'e', 'r', 'm'],
                date := some ['d'],
                startTime := some ['1', '0', ':', '0', '0'],
                endTime := some ['1', '1', ':', '3', '0'],
                timeField := some ['1', '0', ':', '0', '0'],
                originalEndTime := some (some ['1', '2', ':', '0', '0']) },
         Reply.confirmPrompt ['1', '0', ':', '0', '0'] ['1', '1', ':', '3', '0'] true, []) := by
  have h := C5_auto_trim_exact testCfg testEnv
    { step := Step.timeSelection, service := some ['p', 'e', 'r', 'm'], date := some ['d'] }
    ['1', '0', ':', '0', '0', '~', '1', '2', ':', '0', '0']
    ['1', '0', ':', '0', '0'] ['1', '2', ':', '0', '0'] 600
    (by decide) (by decide) (by decide) (by decide) (by decide) (by decide) (by decide)
    (by decide)
  refine ⟨by decide, ?_⟩
  rw [h.1]
  rfl

/-- C6: a parsed range inside an available period whose duration is
strictly below the service duration is rejected as too short; the session
stays in the time-selection step and the draft's start/end fields are left
untouched (only the `original_end_time` scratch value is written). -/
theorem C6_too_short_rejected (cfg : Config) (env : Env) (sess : Session) (msg : Str)
    (s e : Str)
    (h1 : containsAnyKw cfg.flowCancelKws (stripChars msg) = false)
    (h2 : containsAnyKw cfg.dateChangeKws (stripChars msg) = false)
    (hp : parseTimeRange (stripChars msg) = some (s, e))
    (hlt : strLt s e = true)
    (hcont : (availablePeriodsOf env sess).any
        (fun p => strLe p.1 s && strLe e p.2) = true)
    (hshort : timeDurationMinutes s e
        < (serviceDuration cfg (sess.service.getD []) : Int)) :
    handleTimeSelection cfg env sess msg
      = (some { sess with originalEndTime := some (some e), step := .timeSelection },
         Reply.tooShort s e (timeDurationMinutes s e), []) := by
  unfold handleTimeSelection
  simp only [h1, h2, hp, Bool.false_eq_true, if_false, hlt, Bool.not_true, hcont]
  rw [if_neg (not_lt.mpr (le_of_lt hshort))]
  rw [if_pos hshort]

/-- Witness for C6, the spec's scenario: 09:30-10:15 (45 minutes) against a
60-minute service is rejected as too short, step stays `time_selection`,
start/end stay unset. -/
theorem C6_too_short_rejected_witness :
    handleTimeSelection testCfg testEnv
        { step := Step.timeSelection, service := some ['c', 'u', 't'], date := some ['d'] }
        ['0', '9', ':', '3', '0', '~', '1', '0', ':', '1', '5']
      = (some { step := Step.timeSelection, service := some ['c', 'u', 't'],
                date := some ['d'],
                originalEndTime := some (some ['1', '0', ':', '1', '5']) },
         Reply.tooShort ['0', '9', ':', '3', '0'] ['1', '0', ':', '1', '5'] 45, []) := by
  have h := C6_too_short_rejected testCfg testEnv
    { step := Step.timeSelection, service := some ['c', 'u', 't'], date := some ['d'] }
    ['0', '9', ':', '3', '0', '~', '1', '0', ':', '1', '5']
    ['0', '9', ':', '3', '0'] ['1', '0', ':', '1', '5']
    (by decide) (by decide) (by decide) (by decide) (by decide) (by decide)
  rw [h]
  rfl

/-- C8 counterexample: in the Confirmation state, the message `"?"`
(containing neither an affirmative nor any negative/cancel keyword) does
not re-prompt: the reply is `createFlowCancelled` — the very cancellation
announcement returned when the user actually cancels with `"X"` — while
the session silently stays in the Confirmation step with the draft intact
(only the genuine interrupt deletes the entry). -/
theorem C8_counterexample :
    getResponse testCfg testEnv
        (some { step := Step.confirmation, service := some ['c', 'u', 't'] }) ['?']
      = (some { step := Step.confirmation, service := some ['c', 'u', 't'] },
         some Reply.createFlowCancelled, [])
    ∧ (getResponse testCfg testEnv
        (some { step := Step.confirmation, service := some ['c', 'u', 't'] }) ['X']).1
      = none
    ∧ (getResponse testCfg testEnv
        (some { step := Step.confirmation, service := some ['c', 'u', 't'] }) ['X']).2.1
      = some Reply.createFlowCancelled := by
  refine ⟨rfl, rfl, rfl⟩

/-- C8 amended: in the Confirmation state, an input containing no
affirmative keyword and no flow-cancel keyword returns the cancellation
announcement (not a corrective re-prompt) while the session entry is kept
unchanged in the Confirmation step with the draft intact; the entry is
deleted only by the flow-cancel keywords, which the dispatcher checks
before the confirmation handler runs. -/
theorem C8_confirmation_nonyes_keeps_session (cfg : Config) (env : Env) (sess : Session)
    (msg : Str)
    (hstep : sess.step = .confirmation)
    (hkw : containsAnyKw cfg.flowCancelKws (stripChars msg) = false)
    (hyes : containsAnyKw cfg.yesKws msg = false) :
    getResponse cfg env (some sess) msg
      = (some sess, some Reply.createFlowCancelled, []) := by
  simp [getResponse, detectIntent, handleReservationFlow, handleConfirmation,
    createSteps, cancelSteps, modifySteps, hstep, hkw, hyes]

/-- Witness for the amended C8. -/
theorem C8_confirmation_nonyes_keeps_session_witness :
    getResponse testCfg testEnv
        (some { step := Step.confirmation, staff := some ['田', '中'] }) ['う', 'ー', 'ん']
      = (some { step := Step.confirmation, staff := some ['田', '中'] },
         some Reply.createFlowCancelled, []) :=
  C8_confirmation_nonyes_keeps_session testCfg testEnv
    { step := Step.confirmation, staff := some ['田', '中'] } ['う', 'ー', 'ん']
    rfl (by decide) (by decide)

/-- C9 counterexample: with the calendar write failing and the sheets write
succeeding, confirming the reservation still persists the sheets row,
returns the full success reply, and neither rolls the session back nor
clears it — one backend is updated while the other is not, and a success
reply follows a failed persistence call. -/
theorem C9_counterexample :
    getResponse testCfg
        { testEnv with calendarOk := false }
        (some { step := Step.confirmation, service := some ['c', 'u', 't'] })
        ['y', 'e', 's']
      = (some { step := Step.confirmation, service := some ['c', 'u', 't'],
                reservationId := some ['R', '1'] },
         some (Reply.reservationConfirmed ['R', '1']),
         [Effect.calendarCreate false, Effect.sheetsSaveReservation true]) := by
  rfl

/-- C9 amended: confirmation attempts the calendar write and the sheets
write unconditionally and independently; failures are only logged: the
success reply with the generated reservation id is returned and the session
entry (now carrying the id) is kept regardless of either outcome. -/
theorem C9_confirmation_not_atomic (cfg : Config) (env : Env) (sess : Session) (msg : Str)
    (hstep : sess.step = .confirmation)
    (hkw : containsAnyKw cfg.flowCancelKws (stripChars msg) = false)
    (hyes : containsAnyKw cfg.yesKws msg = true) :
    getResponse cfg env (some sess) msg
      = (some { sess with reservationId := some env.newReservationId },
         some (Reply.reservationConfirmed env.newReservationId),
         [Effect.calendarCreate env.calendarOk, Effect.sheetsSaveReservation env.sheetsOk]) := by
  simp [getResponse, detectIntent, handleReservationFlow, handleConfirmation,
    createSteps, cancelSteps, modifySteps, hstep, hkw, hyes]

/-- Witness for the amended C9 (both backends succeeding). -/
theorem C9_confirmation_not_atomic_witness :
    getResponse testCfg testEnv
        (some { step := Step.confirmation, service := some ['c', 'u', 't'] }) ['y', 'e', 's']
      = (some { step := Step.confirmation, service := some ['c', 'u', 't'],
                reservationId := some ['R', '1'] },
         some (Reply.reservationConfirmed ['R', '1']),
         [Effect.calendarCreate true, Effect.sheetsSaveReservation true]) :=
  C9_confirmation_not_atomic testCfg testEnv
    { step := Step.confirmation, service := some ['c', 'u', 't'] } ['y', 'e', 's']
    rfl (by decide) (by decide)

/-- C10: in the Modify flow's time change, a parsed range whose (positive)
duration differs from the service duration — longer or shorter — is
accepted provided start plus the service duration fits a stored available
slot: the persisted end time is silently replaced by start plus the service
duration, so the persisted interval spans exactly the service duration. -/
theorem C10_time_mod_uses_service_duration (cfg : Config) (env : Env) (sess : Session)
    (r : Reservation) (msg : Str) (s e : Str) (sMin eMin : Nat)
    (hp : parseTimeRange msg = some (s, e))
    (hs : parseHMChars s = some sMin)
    (he : parseHMChars e = some eMin)
    (hfit : sess.availableSlots.any (fun p =>
        decide (p.1 ≤ sMin)
          && decide (sMin + serviceDuration cfg r.service ≤ p.2)) = true)
    (hpos : sMin < eMin)
    (hdiff : (eMin : Int) - (sMin : Int) ≠ (serviceDuration cfg r.service : Int))
    (hnowrap : sMin + serviceDuration cfg r.service < 1440)
    (hcal : env.calendarOk = true) :
    processTimeModification cfg env sess r msg
      = (none,
         Reply.timeModCompleted r.reservationId (sess.selectedDate.getD r.date) s
           (formatHM (sMin + serviceDuration cfg r.service)),
         [Effect.calendarModifyTime (sess.selectedDate.getD r.date) s true,
          Effect.sheetsUpdateTime r.reservationId s
            (formatHM (sMin + serviceDuration cfg r.service))
            (decide ((sess.selectedDate.getD r.date) ≠ r.date)) env.sheetsOk])
    ∧ parseHMChars (formatHM (sMin + serviceDuration cfg r.service))
        = some (sMin + serviceDuration cfg r.service) := by
  have hnotle : ¬ ((eMin : Int) - (sMin : Int) ≤ 0) := by omega
  constructor
  · unfold processTimeModification
    rw [hp]
    simp only [hs, he, Nat.mod_eq_of_lt hnowrap, hfit, Bool.not_true, Bool.false_eq_true,
      if_false, if_neg hnotle, if_pos hdiff, hcal, Bool.not_true]
  · exact parseHM_formatHM _

/-- Witness for C10: a 60-minute service, stored slot 13:00-15:00, user
types `13:00~13:30` (30 minutes, too short); accepted and persisted as
13:00-14:00. -/
theorem C10_time_mod_uses_service_duration_witness :
    processTimeModification testCfg testEnv
        { step := Step.modifyConfirm, modificationType := some ModField.time,
          availableSlots := [(780, 900)] }
        (Reservation.mk ['R', '1'] ['d'] ['1', '3', ':', '0', '0'] ['1', '4', ':', '0', '0']
          ['c', 'u', 't'] ['田', '中'] ['客'])
        ['1', '3', ':', '0', '0', '~', '1', '3', ':', '3', '0']
      = (none,
         Reply.timeModCompleted ['R', '1'] ['d'] ['1', '3', ':', '0', '0']
           ['1', '4', ':', '0', '0'],
         [Effect.calendarModifyTime ['d'] ['1', '3', ':', '0', '0'] true,
          Effect.sheetsUpdateTime ['R', '1'] ['1', '3', ':', '0', '0']
            ['1', '4', ':', '0', '0'] false true]) := by
  have h := C10_time_mod_uses_service_duration testCfg testEnv
    { step := Step.modifyConfirm, modificationType := some ModField.time,
      availableSlots := [(780, 900)] }
    (Reservation.mk ['R', '1'] ['d'] ['1', '3', ':', '0', '0'] ['1', '4', ':', '0', '0']
      ['c', 'u', 't'] ['田', '中'] ['客'])
    ['1', '3', ':', '0', '0', '~', '1', '3', ':', '3', '0']
    ['1', '3', ':', '0', '0'] ['1', '3', ':', '3', '0'] 780 810
    (by decide) (by decide) (by decide) (by decide) (by decide) (by decide) (by decide)
    rfl
  rw [h.1]
  rfl

/-- Witness for C7 at a concrete input: confirmation step, message `"X"`. -/
theorem C7_interrupt_aborts_witness :
    (getResponse testCfg testEnv (some { step := Step.confirmation }) ['X']).1 = none ∧
    (getResponse testCfg testEnv (some { step := Step.confirmation }) ['X']).2.1 ∈
      ([some Reply.createFlowCancelled, some Reply.modifyFlowCancelled,
        some Reply.cancelFlowCancelled] : List (Option Reply)) ∧
    (getResponse testCfg testEnv (some { step := Step.confirmation }) ['X']).2.2
      = ([] : List Effect) :=
  C7_interrupt_aborts testCfg testEnv { step := Step.confirmation } ['X'] ['X']
    (by decide) (by simp [testCfg]) (by decide) (by decide)

end Salon

